import Mathlib

/-!
Verification development for `image_classification/RepLKNet/config.py`:
a hierarchical configuration schema (yacs-style `CfgNode`) with a merge
pipeline: compiled-in defaults, chained BASE yaml files, a leaf yaml file,
and CLI-argument overrides.

The pure Python functions of the file (`_update_config_from_file`,
`update_config`, `get_config`, the default tree `_C`) are embedded as
executable Lean definitions.  The yacs `CfgNode` operations the file calls
(`clone`, `defrost`, `freeze`, `merge_from_file`'s key merging) are not part
of the repository source; they are modelled from the specification's
description of `ConfigNode` (nestable string-keyed tree, frozen/mutable
lifecycle, schema-checked merge with no partial application).
-/

/-- Modelled from the spec: scalar or list values stored at the leaves of a
config tree.  Python `None` is `CVal.null`; float literals are kept as exact
decimal pairs `m * 10 ^ (-e)` (the source never computes with them); the only
lists occurring in the source are flat lists of ints, floats or strings, and
the one tuple (`BETAS`) is modelled as a float list. -/
inductive CVal where
  | int (n : Int)
  | float (m : Int) (e : Nat)
  | str (s : String)
  | bool (b : Bool)
  | null
  | intList (l : List Int)
  | floatList (l : List (Int × Nat))
  | strList (l : List String)
deriving DecidableEq, Repr

/-- Modelled from the spec: a ConfigNode is a recursively nestable mapping
from string keys to scalar values or nested nodes. -/
inductive CTree where
  | leaf (v : CVal)
  | node (es : List (String × CTree))
deriving Repr

/-- Modelled from the spec: a config object is a ConfigNode tree together
with its lifecycle state, mutable (`frozen = false`) or frozen. -/
structure Config where
  tree : CTree
  frozen : Bool
deriving Repr

/-- Modelled from the spec: the error taxonomy relevant to the embedded
operations.  Parse errors are not modelled because the embedding works on
already-parsed yaml documents; `fuelExhausted` marks exhaustion of the
recursion bound that replaces Python's unbounded BASE recursion. -/
inductive CErr where
  | schemaError
  | ioError
  | fuelExhausted
deriving DecidableEq, Repr

/-- Modelled from the spec: read the scalar stored at a key path.  Returns
`none` when the path does not denote a leaf of the tree.  Lookup takes the
first entry with a matching key, as a Python dict has unique keys. -/
def leafAt : List String → CTree → Option CVal
  | [], CTree.leaf v => some v
  | [], CTree.node _ => none
  | _ :: _, CTree.leaf _ => none
  | k :: ks, CTree.node es =>
    match es.find? (fun e => e.1 = k) with
    | some e => leafAt ks e.2
    | none => none

/-- Modelled from the spec: a key path is in the schema when it denotes a
leaf of the tree. -/
def hasLeaf (p : List String) (t : CTree) : Bool :=
  (leafAt p t).isSome

/-- Modelled from the spec: overwrite the scalar stored at an existing key
path, leaving the tree unchanged when the path does not denote a leaf. -/
def setPath : List String → CVal → CTree → CTree
  | [], w, CTree.leaf _ => CTree.leaf w
  | [], _, CTree.node es => CTree.node es
  | _ :: _, _, CTree.leaf v => CTree.leaf v
  | k :: ks, w, CTree.node es =>
    CTree.node (es.map (fun e => if e.1 = k then (e.1, setPath ks w e.2) else e))

/-- Modelled from the spec: a parsed yaml document, linearized as the list of
its leaf key paths with the assigned values, in document order.  A `BASE`
entry, when present, appears as the path `["BASE"]` with a string-list
value. -/
abbrev YamlDoc := List (List String × CVal)

/-- Modelled from the spec: apply the document's assignments to a tree in
order, a later assignment to the same path overwriting an earlier one. -/
def applyKeys (d : YamlDoc) (t : CTree) : CTree :=
  d.foldl (fun t kv => setPath kv.1 kv.2 t) t

/-- Modelled from the spec: the yacs-style merge of a document into a tree.
Every key path of the document must already exist in the schema; an unknown
key is a SchemaError and no updated tree is produced (no partial
application). -/
def mergeTree (d : YamlDoc) (t : CTree) : Except CErr CTree :=
  if d.all (fun kv => hasLeaf kv.1 t) then Except.ok (applyKeys d t) else Except.error CErr.schemaError

/-- Modelled from the spec: `config.freeze()` puts the config in the frozen
state. -/
def freeze (c : Config) : Config :=
  Config.mk c.tree true

/-- Modelled from the spec: `config.defrost()` puts the config in the
mutable state. -/
def defrost (c : Config) : Config :=
  Config.mk c.tree false

/-- Modelled from the spec: `clone()` is a deep copy; in the pure embedding a
deep copy is the value itself, mutation being functional update. -/
def clone (c : Config) : Config :=
  Config.mk c.tree c.frozen

/-- Modelled from the spec: merge a document's own keys into a config
(`config.merge_from_file` after parsing), acting on the tree and leaving the
lifecycle flag as it was. -/
def mergeOwnKeys (c : Config) (d : YamlDoc) : Except CErr Config :=
  match mergeTree d c.tree with
  | Except.ok t => Except.ok (Config.mk t c.frozen)
  | Except.error e => Except.error e

/-- Modelled from the spec: an attribute assignment `config.A.B = v` on a
defrosted config, as used by `update_config`. -/
def setVal (p : List String) (v : CVal) (c : Config) : Config :=
  Config.mk (setPath p v c.tree) c.frozen

/-- Modelled from the spec: an attribute read `config.A`, yielding the value
at the path (reads in the source only ever target existing scalar keys). -/
def getValAt (p : List String) (c : Config) : CVal :=
  match leafAt p c.tree with
  | some v => v
  | none => CVal.null

/-- Modelled from the spec: Python truthiness of a config value, used by
`not config.EVAL`. -/
def cvalTruthy : CVal → Bool
  | CVal.int n => !(n == 0)
  | CVal.float m _ => !(m == 0)
  | CVal.str s => !(s == "")
  | CVal.bool b => b
  | CVal.null => false
  | CVal.intList l => !l.isEmpty
  | CVal.floatList l => !l.isEmpty
  | CVal.strList l => !l.isEmpty

/-- The file system visible to the merge pipeline: a map from path strings to
already-parsed yaml documents. -/
abbrev FS := List (String × YamlDoc)

/-- Look up a file by exact path. -/
def lookupFS : FS → String → Option YamlDoc
  | [], _ => none
  | (p, d) :: rest, q => if p = q then some d else lookupFS rest q

/-- Embeds `yaml_cfg.setdefault('BASE', [''])` from
`_update_config_from_file`: the document's BASE list when present, the
one-element list of an empty string otherwise. -/
def docBase (d : YamlDoc) : List String :=
  match d.find? (fun kv => kv.1 = ["BASE"]) with
  | some kv =>
    match kv.2 with
    | CVal.strList ss => ss
    | _ => []
  | none => [""]

/-- The characters of a path before its last slash, empty when there is no
slash. -/
def beforeLastSlash : List Char → List Char
  | [] => []
  | c :: cs => if cs.contains '/' then c :: beforeLastSlash cs else []

/-- Embeds `os.path.dirname` for the relative paths the source uses: the
part of the path before its final slash, empty for a bare file name. -/
def osDirname (s : String) : String :=
  String.mk (beforeLastSlash s.data)

/-- Embeds `os.path.join` for the paths the source builds: joining with an
empty directory gives the file name back, and an absolute second component
replaces the first. -/
def osJoin (a b : String) : String :=
  if a = "" then b else if b.data.head? = some '/' then b else a ++ "/" ++ b

/-- The static default tree `_C` of config.py, transcribed key for key in
source order. -/
def defaultCTree : CTree :=
  CTree.node
    [ ("BASE", CTree.leaf (CVal.strList [""]))
    , ("DATA", CTree.node
        [ ("BATCH_SIZE", CTree.leaf (CVal.int 64))
        , ("BATCH_SIZE_EVAL", CTree.leaf CVal.null)
        , ("DATA_PATH", CTree.leaf (CVal.str "/dataset/imagenet/"))
        , ("DATASET", CTree.leaf (CVal.str "imagenet2012"))
        , ("IMAGE_SIZE", CTree.leaf (CVal.int 224))
        , ("IMAGE_CHANNELS", CTree.leaf (CVal.int 3))
        , ("CROP_PCT", CTree.leaf (CVal.float 875 3))
        , ("NUM_WORKERS", CTree.leaf (CVal.int 2))
        , ("IMAGENET_MEAN", CTree.leaf (CVal.floatList [(485, 3), (456, 3), (406, 3)]))
        , ("IMAGENET_STD", CTree.leaf (CVal.floatList [(229, 3), (224, 3), (225, 3)]))
        ])
    , ("MODEL", CTree.node
        [ ("TYPE", CTree.leaf (CVal.str "RepLKNet"))
        , ("NAME", CTree.leaf (CVal.str "replknet_31b"))
        , ("RESUME", CTree.leaf CVal.null)
        , ("PRETRAINED", CTree.leaf CVal.null)
        , ("NUM_CLASSES", CTree.leaf (CVal.int 1000))
        , ("DROPPATH", CTree.leaf (CVal.float 5 1))
        , ("LARGE_KERNEL_SIZES", CTree.leaf (CVal.intList [31, 28, 27, 13]))
        , ("LAYERS", CTree.leaf (CVal.intList [2, 2, 18, 2]))
        , ("CHANNELS", CTree.leaf (CVal.intList [128, 256, 512, 1024]))
        , ("DW_RATIO", CTree.leaf (CVal.float 10 1))
        , ("FFN_RATIO", CTree.leaf (CVal.float 40 1))
        , ("SMALL_KERNEL", CTree.leaf (CVal.int 5))
        , ("SMALL_KERNEL_MERGED", CTree.leaf (CVal.bool false))
        , ("NORM_INTER_FEATURES", CTree.leaf (CVal.bool false))
        , ("OUT_INDICES", CTree.leaf CVal.null)
        , ("SYNC_BN", CTree.leaf (CVal.bool false))
        ])
    , ("TRAIN", CTree.node
        [ ("LAST_EPOCH", CTree.leaf (CVal.int 0))
        , ("NUM_EPOCHS", CTree.leaf (CVal.int 300))
        , ("WARMUP_EPOCHS", CTree.leaf (CVal.int 10))
        , ("WEIGHT_DECAY", CTree.leaf (CVal.float 5 2))
        , ("BASE_LR", CTree.leaf (CVal.float 4 3))
        , ("WARMUP_START_LR", CTree.leaf (CVal.float 1 6))
        , ("END_LR", CTree.leaf (CVal.float 1 6))
        , ("GRAD_CLIP", CTree.leaf CVal.null)
        , ("ACCUM_ITER", CTree.leaf (CVal.int 1))
        , ("LINEAR_SCALED_LR", CTree.leaf (CVal.int 256))
        , ("OPTIMIZER", CTree.node
            [ ("NAME", CTree.leaf (CVal.str "AdamW"))
            , ("EPS", CTree.leaf (CVal.float 1 8))
            , ("BETAS", CTree.leaf (CVal.floatList [(9, 1), (999, 3)]))
            ])
        , ("MODEL_EMA", CTree.leaf (CVal.bool true))
        , ("MODEL_EMA_DECAY", CTree.leaf (CVal.float 9999 4))
        , ("MODEL_EMA_FORCE_CPU", CTree.leaf (CVal.bool false))
        , ("SMOOTHING", CTree.leaf (CVal.float 1 1))
        , ("COLOR_JITTER", CTree.leaf (CVal.float 4 1))
        , ("AUTO_AUGMENT", CTree.leaf (CVal.bool true))
        , ("RAND_AUGMENT", CTree.leaf (CVal.bool false))
        , ("RAND_AUGMENT_LAYERS", CTree.leaf (CVal.int 2))
        , ("RAND_AUGMENT_MAGNITUDE", CTree.leaf (CVal.int 9))
        , ("MIXUP_ALPHA", CTree.leaf (CVal.float 8 1))
        , ("MIXUP_PROB", CTree.leaf (CVal.float 10 1))
        , ("MIXUP_SWITCH_PROB", CTree.leaf (CVal.float 5 1))
        , ("MIXUP_MODE", CTree.leaf (CVal.str "batch"))
        , ("CUTMIX_ALPHA", CTree.leaf (CVal.float 10 1))
        , ("CUTMIX_MINMAX", CTree.leaf CVal.null)
        , ("RANDOM_ERASE_PROB", CTree.leaf (CVal.float 25 2))
        , ("RANDOM_ERASE_MODE", CTree.leaf (CVal.str "pixel"))
        , ("RANDOM_ERASE_COUNT", CTree.leaf (CVal.int 1))
        , ("RANDOM_ERASE_SPLIT", CTree.leaf (CVal.bool false))
        ])
    , ("SAVE", CTree.leaf (CVal.str "./output"))
    , ("SAVE_FREQ", CTree.leaf (CVal.int 10))
    , ("REPORT_FREQ", CTree.leaf (CVal.int 20))
    , ("VALIDATE_FREQ", CTree.leaf (CVal.int 1))
    , ("SEED", CTree.leaf (CVal.int 42))
    , ("EVAL", CTree.leaf (CVal.bool false))
    , ("AMP", CTree.leaf (CVal.bool false))
    ]

/-- The module-level default config object `_C` of config.py.  It is built
mutably at import time and is never frozen by the source. -/
def _C : Config :=
  Config.mk defaultCTree false

/-- Embeds the `for cfg in yaml_cfg.setdefault('BASE', ['']): if cfg: ...`
loop of `_update_config_from_file`: each non-empty BASE entry, left to
right, is resolved against the leaf file's directory and processed by the
recursive step, threading the config and propagating errors. -/
def mergeBasesWith (step : String → Config → Except CErr Config) (dir : String) :
    List String → Config → Except CErr Config
  | [], c => Except.ok c
  | b :: rest, c =>
    if b = "" then mergeBasesWith step dir rest c
    else
      match step (osJoin dir b) c with
      | Except.ok c2 => mergeBasesWith step dir rest c2
      | Except.error e => Except.error e

/-- Embeds `_update_config_from_file(config, cfg_file)` of config.py:
defrost, read and parse the file, recursively process each non-empty BASE
entry, merge the file's own keys, freeze.  The `fuel` bound replaces
Python's unbounded recursion (the source has no cycle guard). -/
def updateConfigFromFile : Nat → FS → String → Config → Except CErr Config
  | 0, _, _, _ => Except.error CErr.fuelExhausted
  | Nat.succ fuel, fs, cfgFile, config =>
    let config := defrost config
    match lookupFS fs cfgFile with
    | none => Except.error CErr.ioError
    | some doc =>
      match mergeBasesWith (updateConfigFromFile fuel fs) (osDirname cfgFile) (docBase doc) config with
      | Except.error e => Except.error e
      | Except.ok c2 =>
        match mergeOwnKeys c2 doc with
        | Except.error e => Except.error e
        | Except.ok c3 => Except.ok (freeze c3)

/-- The CLI options consumed by `update_config`, as produced by the external
argument parser: string and integer options are nullable, `eval` and `amp`
are boolean flags. -/
structure Args where
  cfg : Option String
  dataset : Option String
  batch_size : Option Int
  batch_size_eval : Option Int
  image_size : Option Int
  accum_iter : Option Int
  data_path : Option String
  eval : Bool
  pretrained : Option String
  resume : Option String
  last_epoch : Option Int
  amp : Bool
deriving Repr

/-- Embeds `if args.dataset: config.DATA.DATASET = args.dataset` (Python
truthiness: absent and empty strings are skipped). -/
def applyDataset (c : Config) (a : Args) : Config :=
  match a.dataset with
  | some d => if d = "" then c else setVal ["DATA", "DATASET"] (CVal.str d) c
  | none => c

/-- Embeds `if args.batch_size:` which sets `DATA.BATCH_SIZE` and then
`DATA.BATCH_SIZE_EVAL` (absent and zero are skipped). -/
def applyBatchSize (c : Config) (a : Args) : Config :=
  match a.batch_size with
  | some n =>
    if n = 0 then c
    else setVal ["DATA", "BATCH_SIZE_EVAL"] (CVal.int n) (setVal ["DATA", "BATCH_SIZE"] (CVal.int n) c)
  | none => c

/-- Embeds `if args.batch_size_eval: config.DATA.BATCH_SIZE_EVAL = ...`. -/
def applyBatchSizeEval (c : Config) (a : Args) : Config :=
  match a.batch_size_eval with
  | some n => if n = 0 then c else setVal ["DATA", "BATCH_SIZE_EVAL"] (CVal.int n) c
  | none => c

/-- Embeds `if args.image_size: config.DATA.IMAGE_SIZE = args.image_size`. -/
def applyImageSize (c : Config) (a : Args) : Config :=
  match a.image_size with
  | some n => if n = 0 then c else setVal ["DATA", "IMAGE_SIZE"] (CVal.int n) c
  | none => c

/-- Embeds `if args.accum_iter: config.TRAIN.ACCUM_ITER = args.accum_iter`. -/
def applyAccumIter (c : Config) (a : Args) : Config :=
  match a.accum_iter with
  | some n => if n = 0 then c else setVal ["TRAIN", "ACCUM_ITER"] (CVal.int n) c
  | none => c

/-- Embeds `if args.data_path: config.DATA.DATA_PATH = args.data_path`. -/
def applyDataPath (c : Config) (a : Args) : Config :=
  match a.data_path with
  | some d => if d = "" then c else setVal ["DATA", "DATA_PATH"] (CVal.str d) c
  | none => c

/-- Embeds `if args.eval: config.EVAL = True`. -/
def applyEvalFlag (c : Config) (a : Args) : Config :=
  if a.eval then setVal ["EVAL"] (CVal.bool true) c else c

/-- Embeds `if args.pretrained: config.MODEL.PRETRAINED = args.pretrained`. -/
def applyPretrained (c : Config) (a : Args) : Config :=
  match a.pretrained with
  | some d => if d = "" then c else setVal ["MODEL", "PRETRAINED"] (CVal.str d) c
  | none => c

/-- Embeds `if args.resume: config.MODEL.RESUME = args.resume`. -/
def applyResume (c : Config) (a : Args) : Config :=
  match a.resume with
  | some d => if d = "" then c else setVal ["MODEL", "RESUME"] (CVal.str d) c
  | none => c

/-- Embeds `if args.last_epoch: config.TRAIN.LAST_EPOCH = args.last_epoch`
(a supplied zero is skipped by Python truthiness). -/
def applyLastEpoch (c : Config) (a : Args) : Config :=
  match a.last_epoch with
  | some n => if n = 0 then c else setVal ["TRAIN", "LAST_EPOCH"] (CVal.int n) c
  | none => c

/-- Embeds `if args.amp: config.AMP = not config.EVAL`, reading EVAL from
the config state reached after the earlier assignments. -/
def applyAmp (c : Config) (a : Args) : Config :=
  if a.amp then setVal ["AMP"] (CVal.bool (!cvalTruthy (getValAt ["EVAL"] c))) c else c

/-- The chain of conditional CLI assignments of `update_config`, in source
order. -/
def applyArgs (c : Config) (a : Args) : Config :=
  let c := applyDataset c a
  let c := applyBatchSize c a
  let c := applyBatchSizeEval c a
  let c := applyImageSize c a
  let c := applyAccumIter c a
  let c := applyDataPath c a
  let c := applyEvalFlag c a
  let c := applyPretrained c a
  let c := applyResume c a
  let c := applyLastEpoch c a
  applyAmp c a

/-- Embeds `update_config(config, args)` of config.py: optionally merge the
yaml file named by `args.cfg`, defrost, apply the CLI assignments, and
return the config without re-freezing (the `config.freeze()` line is
commented out in the source). -/
def update_config (fuel : Nat) (fs : FS) (config : Config) (args : Args) : Except CErr Config :=
  let afterFile :=
    match args.cfg with
    | some f => if f = "" then Except.ok config else updateConfigFromFile fuel fs f config
    | none => Except.ok config
  match afterFile with
  | Except.error e => Except.error e
  | Except.ok config => Except.ok (applyArgs (defrost config) args)

/-- Embeds `get_config(cfg_file=None)` of config.py: clone the module-level
defaults and, when a non-empty file is given, merge it. -/
def get_config (fuel : Nat) (fs : FS) (cfg_file : Option String) : Except CErr Config :=
  let config := clone _C
  match cfg_file with
  | some f => if f = "" then Except.ok config else updateConfigFromFile fuel fs f config
  | none => Except.ok config

/-- Modelled from the spec: the reference order for BASE chaining — given
files A (BASE empty), B (BASE=[A]), C (BASE=[B]), merge A's own keys, then
B's own keys, then C's own keys into the config, and freeze the result. -/
def seqMergeThree (cfg : Config) (dA dB dC : YamlDoc) : Except CErr Config :=
  match mergeOwnKeys (defrost cfg) dA with
  | Except.error e => Except.error e
  | Except.ok c1 =>
    match mergeOwnKeys c1 dB with
    | Except.error e => Except.error e
    | Except.ok c2 =>
      match mergeOwnKeys c2 dC with
      | Except.error e => Except.error e
      | Except.ok c3 => Except.ok (freeze c3)

/-- Modelled from the spec as amended by the code: the result of a Python
`if opt: field = opt` override for a nullable integer option — applied only
when present and non-zero. -/
def pyOverrideInt (o : Option Int) (orig : Option CVal) : Option CVal :=
  match o with
  | some n => if n = 0 then orig else some (CVal.int n)
  | none => orig

/-- Modelled from the spec as amended by the code: the result of a Python
`if opt: field = opt` override for a nullable string option — applied only
when present and non-empty. -/
def pyOverrideStr (o : Option String) (orig : Option CVal) : Option CVal :=
  match o with
  | some t => if t = "" then orig else some (CVal.str t)
  | none => orig


/-- Finding by key commutes with mapping a key-preserving function over the
entries. -/
theorem find?_map_keyfix (f : String × CTree → String × CTree)
    (hf : ∀ e, (f e).1 = e.1) (k : String) :
    ∀ es : List (String × CTree),
      (es.map f).find? (fun e => e.1 = k) = (es.find? (fun e => e.1 = k)).map f
  | [] => rfl
  | e :: es => by
    by_cases h : e.1 = k
    · simp [List.find?_cons, hf e, h]
    · simp [List.find?_cons, hf e, h, find?_map_keyfix f hf k es]

/-- Writing a path does not disturb reads at any other path. -/
theorem leafAt_setPath_ne : ∀ (p q : List String) (w : CVal) (t : CTree), p ≠ q →
    leafAt q (setPath p w t) = leafAt q t := by
  intro p
  induction p with
  | nil =>
    intro q w t hne
    cases t with
    | leaf v =>
      cases q with
      | nil => exact absurd rfl hne
      | cons k ks => simp [setPath, leafAt]
    | node es => simp [setPath]
  | cons k ks ih =>
    intro q w t hne
    cases t with
    | leaf v => simp [setPath]
    | node es =>
      cases q with
      | nil => simp [setPath, leafAt]
      | cons k2 ks2 =>
        simp only [setPath, leafAt]
        rw [find?_map_keyfix _ (fun e => by by_cases h : e.1 = k <;> simp [h]) k2 es]
        cases hfind : es.find? (fun e => e.1 = k2) with
        | none => rfl
        | some e =>
          have hek : e.1 = k2 := by
            have := List.find?_some hfind
            simpa using this
          by_cases h : e.1 = k
          · have hkk : k = k2 := by rw [← h, hek]
            have hks : ks ≠ ks2 := by
              intro hcon
              exact hne (by rw [hkk, hcon])
            simp [h, ih ks2 w e.2 hks]
          · simp [h]

/-- Writing a path that exists stores the written value there. -/
theorem leafAt_setPath_self : ∀ (p : List String) (w : CVal) (t : CTree) (u : CVal),
    leafAt p t = some u → leafAt p (setPath p w t) = some w := by
  intro p
  induction p with
  | nil =>
    intro w t u h
    cases t with
    | leaf v => simp [setPath, leafAt]
    | node es => simp [leafAt] at h
  | cons k ks ih =>
    intro w t u h
    cases t with
    | leaf v => simp [leafAt] at h
    | node es =>
      simp only [setPath, leafAt] at h ⊢
      rw [find?_map_keyfix _ (fun e => by by_cases hh : e.1 = k <;> simp [hh]) k es]
      cases hfind : es.find? (fun e => e.1 = k) with
      | none => rw [hfind] at h; exact absurd h (by simp)
      | some e =>
        rw [hfind] at h
        have hek : e.1 = k := by
          have := List.find?_some hfind
          simpa using this
        simp only [Option.map_some']
        simp [hek, ih w e.2 u h]

/-- Writing a path that does not exist leaves every read at that path
undefined. -/
theorem leafAt_setPath_none : ∀ (p : List String) (w : CVal) (t : CTree),
    leafAt p t = none → leafAt p (setPath p w t) = none := by
  intro p
  induction p with
  | nil =>
    intro w t h
    cases t with
    | leaf v => simp [leafAt] at h
    | node es => simp [setPath, leafAt]
  | cons k ks ih =>
    intro w t h
    cases t with
    | leaf v => simp [setPath, leafAt]
    | node es =>
      simp only [setPath, leafAt] at h ⊢
      rw [find?_map_keyfix _ (fun e => by by_cases hh : e.1 = k <;> simp [hh]) k es]
      cases hfind : es.find? (fun e => e.1 = k) with
      | none => simp
      | some e =>
        rw [hfind] at h
        have hek : e.1 = k := by
          have := List.find?_some hfind
          simpa using this
        simp [hek, ih w e.2 h]

/-- Writing any path preserves the schema shape of the tree. -/
theorem hasLeaf_setPath (p q : List String) (w : CVal) (t : CTree) :
    hasLeaf q (setPath p w t) = hasLeaf q t := by
  by_cases hpq : p = q
  · subst hpq
    cases h : leafAt p t with
    | none => simp [hasLeaf, leafAt_setPath_none p w t h, h]
    | some u => simp [hasLeaf, leafAt_setPath_self p w t u h, h]
  · simp [hasLeaf, leafAt_setPath_ne p q w t hpq]

/-- Applying a document whose paths avoid `q` does not disturb reads at
`q`. -/
theorem leafAt_applyKeys_notMentioned : ∀ (d : YamlDoc) (t : CTree) (q : List String),
    (∀ kv ∈ d, kv.1 ≠ q) → leafAt q (applyKeys d t) = leafAt q t := by
  intro d
  induction d with
  | nil => intro t q _; rfl
  | cons kv rest ih =>
    intro t q h
    have hq : kv.1 ≠ q := h kv (List.mem_cons_self kv rest)
    have hrest : ∀ e ∈ rest, e.1 ≠ q := fun e he => h e (List.mem_cons_of_mem kv he)
    calc leafAt q (applyKeys (kv :: rest) t)
        = leafAt q (applyKeys rest (setPath kv.1 kv.2 t)) := rfl
      _ = leafAt q (setPath kv.1 kv.2 t) := ih (setPath kv.1 kv.2 t) q hrest
      _ = leafAt q t := leafAt_setPath_ne kv.1 q kv.2 t hq

/-- Applying a document preserves the schema shape of the tree. -/
theorem hasLeaf_applyKeys : ∀ (d : YamlDoc) (t : CTree) (q : List String),
    hasLeaf q (applyKeys d t) = hasLeaf q t := by
  intro d
  induction d with
  | nil => intro t q; rfl
  | cons kv rest ih =>
    intro t q
    calc hasLeaf q (applyKeys (kv :: rest) t)
        = hasLeaf q (applyKeys rest (setPath kv.1 kv.2 t)) := rfl
      _ = hasLeaf q (setPath kv.1 kv.2 t) := ih (setPath kv.1 kv.2 t) q
      _ = hasLeaf q t := hasLeaf_setPath kv.1 q kv.2 t

/-- Applying a document whose assignments all repeat the tree's current
values changes no read. -/
theorem leafAt_applyKeys_noop : ∀ (d : YamlDoc) (t : CTree),
    (∀ kv ∈ d, leafAt kv.1 t = some kv.2) →
    ∀ q, leafAt q (applyKeys d t) = leafAt q t := by
  intro d
  induction d with
  | nil => intro t _ q; rfl
  | cons kv rest ih =>
    intro t h q
    have hkv : leafAt kv.1 t = some kv.2 := h kv (List.mem_cons_self kv rest)
    have hpt : ∀ r, leafAt r (setPath kv.1 kv.2 t) = leafAt r t := by
      intro r
      by_cases hr : kv.1 = r
      · subst hr
        rw [leafAt_setPath_self kv.1 kv.2 t kv.2 hkv, hkv]
      · exact leafAt_setPath_ne kv.1 r kv.2 t hr
    have hrest : ∀ e ∈ rest, leafAt e.1 (setPath kv.1 kv.2 t) = some e.2 := by
      intro e he
      rw [hpt e.1]
      exact h e (List.mem_cons_of_mem kv he)
    calc leafAt q (applyKeys (kv :: rest) t)
        = leafAt q (applyKeys rest (setPath kv.1 kv.2 t)) := rfl
      _ = leafAt q (setPath kv.1 kv.2 t) := ih (setPath kv.1 kv.2 t) hrest q
      _ = leafAt q t := hpt q

/-- Applying a document to any tree of the reference shape makes every path
the document mentions read as in the reference tree, provided the
document's assignments agree with the reference tree. -/
theorem leafAt_applyKeys_covered : ∀ (d : YamlDoc) (t t0 : CTree) (q : List String) (v : CVal),
    (q, v) ∈ d → (∀ kv ∈ d, leafAt kv.1 t0 = some kv.2) →
    (∀ r, hasLeaf r t = hasLeaf r t0) →
    leafAt q (applyKeys d t) = leafAt q t0 := by
  intro d
  induction d with
  | nil => intro t t0 q v hmem; exact absurd hmem (List.not_mem_nil (q, v))
  | cons kv rest ih =>
    intro t t0 q v hmem hvals hshape
    have hvalsrest : ∀ e ∈ rest, leafAt e.1 t0 = some e.2 :=
      fun e he => hvals e (List.mem_cons_of_mem kv he)
    have hshape2 : ∀ r, hasLeaf r (setPath kv.1 kv.2 t) = hasLeaf r t0 := by
      intro r
      rw [hasLeaf_setPath kv.1 r kv.2 t]
      exact hshape r
    by_cases hrest : ∃ v2, (q, v2) ∈ rest
    · obtain ⟨v2, hv2⟩ := hrest
      exact ih (setPath kv.1 kv.2 t) t0 q v2 hv2 hvalsrest hshape2
    · have hkvq : kv = (q, v) := by
        rcases List.mem_cons.mp hmem with h | h
        · exact h.symm
        · exact absurd ⟨v, h⟩ hrest
      subst hkvq
      have hnone : ∀ e ∈ rest, e.1 ≠ q := by
        intro e he hcon
        exact hrest ⟨e.2, by rw [← hcon]; exact he⟩
      have hv0 : leafAt q t0 = some v := hvals (q, v) (List.mem_cons_self (q, v) rest)
      have hsome : (leafAt q t).isSome := by
        have := hshape q
        simp [hasLeaf, hv0] at this
        exact this
      obtain ⟨u, hu⟩ := Option.isSome_iff_exists.mp hsome
      calc leafAt q (applyKeys ((q, v) :: rest) t)
          = leafAt q (applyKeys rest (setPath q v t)) := rfl
        _ = leafAt q (setPath q v t) :=
            leafAt_applyKeys_notMentioned rest (setPath q v t) q hnone
        _ = some v := leafAt_setPath_self q v t u hu
        _ = leafAt q t0 := hv0.symm

/-- A successful merge of a document's own keys preserves the schema
shape. -/
theorem mergeOwnKeys_shape (c : Config) (d : YamlDoc) (c2 : Config)
    (h : mergeOwnKeys c d = Except.ok c2) :
    ∀ q, hasLeaf q c2.tree = hasLeaf q c.tree := by
  intro q
  unfold mergeOwnKeys mergeTree at h
  by_cases hall : d.all (fun kv => hasLeaf kv.1 c.tree)
  · simp [hall] at h
    rw [← h]
    exact hasLeaf_applyKeys d c.tree q
  · simp [hall] at h

/-- A successful merge of a document's own keys keeps the lifecycle flag. -/
theorem mergeOwnKeys_frozen (c : Config) (d : YamlDoc) (c2 : Config)
    (h : mergeOwnKeys c d = Except.ok c2) : c2.frozen = c.frozen := by
  unfold mergeOwnKeys mergeTree at h
  by_cases hall : d.all (fun kv => hasLeaf kv.1 c.tree)
  · simp [hall] at h
    rw [← h]
  · simp [hall] at h

/-- A successful merge of a document's own keys requires every path of the
document to exist in the schema. -/
theorem mergeOwnKeys_schema (c : Config) (d : YamlDoc) (c2 : Config)
    (h : mergeOwnKeys c d = Except.ok c2) :
    ∀ kv ∈ d, hasLeaf kv.1 c.tree = true := by
  intro kv hkv
  unfold mergeOwnKeys mergeTree at h
  by_cases hall : d.all (fun kv => hasLeaf kv.1 c.tree)
  · exact List.all_eq_true.mp hall kv hkv
  · simp [hall] at h

/-- The merged tree of a successful own-keys merge is the document applied
to the input tree. -/
theorem mergeOwnKeys_ok_tree (c : Config) (d : YamlDoc) (c2 : Config)
    (h : mergeOwnKeys c d = Except.ok c2) : c2.tree = applyKeys d c.tree := by
  unfold mergeOwnKeys mergeTree at h
  by_cases hall : d.all (fun kv => hasLeaf kv.1 c.tree)
  · simp [hall] at h
    rw [← h]
  · simp [hall] at h

/-- The base loop over entries that are all empty is the identity. -/
theorem mergeBasesWith_allEmpty (step : String → Config → Except CErr Config)
    (dir : String) : ∀ (bs : List String) (c : Config), (∀ b ∈ bs, b = "") →
    mergeBasesWith step dir bs c = Except.ok c := by
  intro bs
  induction bs with
  | nil => intro c _; rfl
  | cons b rest ih =>
    intro c h
    have hb : b = "" := h b (List.mem_cons_self b rest)
    have hrest : ∀ x ∈ rest, x = "" := fun x hx => h x (List.mem_cons_of_mem b hx)
    simp [mergeBasesWith, hb, ih c hrest]

/-- The base loop preserves any property of successful steps that is
preserved by each step. -/
theorem mergeBasesWith_shape (step : String → Config → Except CErr Config)
    (hstep : ∀ f c c2, step f c = Except.ok c2 → ∀ q, hasLeaf q c2.tree = hasLeaf q c.tree)
    (dir : String) : ∀ (bs : List String) (c c2 : Config),
    mergeBasesWith step dir bs c = Except.ok c2 →
    ∀ q, hasLeaf q c2.tree = hasLeaf q c.tree := by
  intro bs
  induction bs with
  | nil =>
    intro c c2 h q
    simp [mergeBasesWith] at h
    rw [h]
  | cons b rest ih =>
    intro c c2 h q
    by_cases hb : b = ""
    · simp [mergeBasesWith, hb] at h
      exact ih c c2 h q
    · simp only [mergeBasesWith, if_neg hb] at h
      cases hstepres : step (osJoin dir b) c with
      | error e => rw [hstepres] at h; exact absurd h (by simp)
      | ok cmid =>
        rw [hstepres] at h
        calc hasLeaf q c2.tree
            = hasLeaf q cmid.tree := ih cmid c2 h q
          _ = hasLeaf q c.tree := hstep (osJoin dir b) c cmid hstepres q

/-- A successful recursive file merge preserves the schema shape of the
config: only values change, never the set of key paths. -/
theorem updateConfigFromFile_shape : ∀ (fuel : Nat) (fs : FS) (f : String) (c c2 : Config),
    updateConfigFromFile fuel fs f c = Except.ok c2 →
    ∀ q, hasLeaf q c2.tree = hasLeaf q c.tree := by
  intro fuel
  induction fuel with
  | zero => intro fs f c c2 h; exact absurd h (by simp [updateConfigFromFile])
  | succ n ih =>
    intro fs f c c2 h q
    simp only [updateConfigFromFile] at h
    cases hlook : lookupFS fs f with
    | none => rw [hlook] at h; exact absurd h (by simp)
    | some doc =>
      rw [hlook] at h
      dsimp only at h
      cases hbases : mergeBasesWith (updateConfigFromFile n fs) (osDirname f) (docBase doc) (defrost c) with
      | error e => rw [hbases] at h; dsimp only at h; exact absurd h (by simp)
      | ok cb =>
        rw [hbases] at h
        dsimp only at h
        cases hmerge : mergeOwnKeys cb doc with
        | error e => rw [hmerge] at h; dsimp only at h; exact absurd h (by simp)
        | ok cm =>
          rw [hmerge] at h
          dsimp only at h
          have hc2 : c2 = freeze cm := by
            have := h
            simp at this
            exact this.symm
          rw [hc2]
          calc hasLeaf q (freeze cm).tree
              = hasLeaf q cm.tree := rfl
            _ = hasLeaf q cb.tree := mergeOwnKeys_shape cb doc cm hmerge q
            _ = hasLeaf q (defrost c).tree :=
                mergeBasesWith_shape (updateConfigFromFile n fs)
                  (fun g d1 d2 hg => ih fs g d1 d2 hg) (osDirname f)
                  (docBase doc) (defrost c) cb hbases q
            _ = hasLeaf q c.tree := rfl

/-- A successful recursive file merge always returns a frozen config. -/
theorem updateConfigFromFile_frozen (fuel : Nat) (fs : FS) (f : String) (c c2 : Config)
    (h : updateConfigFromFile fuel fs f c = Except.ok c2) : c2.frozen = true := by
  cases fuel with
  | zero => exact absurd h (by simp [updateConfigFromFile])
  | succ n =>
    simp only [updateConfigFromFile] at h
    cases hlook : lookupFS fs f with
    | none => rw [hlook] at h; exact absurd h (by simp)
    | some doc =>
      rw [hlook] at h
      dsimp only at h
      cases hbases : mergeBasesWith (updateConfigFromFile n fs) (osDirname f) (docBase doc) (defrost c) with
      | error e => rw [hbases] at h; dsimp only at h; exact absurd h (by simp)
      | ok cb =>
        rw [hbases] at h
        dsimp only at h
        cases hmerge : mergeOwnKeys cb doc with
        | error e => rw [hmerge] at h; dsimp only at h; exact absurd h (by simp)
        | ok cm =>
          rw [hmerge] at h
          dsimp only at h
          have hc2 : c2 = freeze cm := by
            have := h
            simp at this
            exact this.symm
          rw [hc2]
          rfl

/-- The CLI step `applyDataset` keeps the lifecycle flag. -/
theorem applyDataset_frozen (c : Config) (a : Args) : (applyDataset c a).frozen = c.frozen := by
  unfold applyDataset
  repeat' split
  all_goals simp [setVal]


/-- The CLI step `applyBatchSize` keeps the lifecycle flag. -/
theorem applyBatchSize_frozen (c : Config) (a : Args) : (applyBatchSize c a).frozen = c.frozen := by
  unfold applyBatchSize
  repeat' split
  all_goals simp [setVal]


/-- The CLI step `applyBatchSizeEval` keeps the lifecycle flag. -/
theorem applyBatchSizeEval_frozen (c : Config) (a : Args) : (applyBatchSizeEval c a).frozen = c.frozen := by
  unfold applyBatchSizeEval
  repeat' split
  all_goals simp [setVal]


/-- The CLI step `applyImageSize` keeps the lifecycle flag. -/
theorem applyImageSize_frozen (c : Config) (a : Args) : (applyImageSize c a).frozen = c.frozen := by
  unfold applyImageSize
  repeat' split
  all_goals simp [setVal]


/-- The CLI step `applyAccumIter` keeps the lifecycle flag. -/
theorem applyAccumIter_frozen (c : Config) (a : Args) : (applyAccumIter c a).frozen = c.frozen := by
  unfold applyAccumIter
  repeat' split
  all_goals simp [setVal]


/-- The CLI step `applyDataPath` keeps the lifecycle flag. -/
theorem applyDataPath_frozen (c : Config) (a : Args) : (applyDataPath c a).frozen = c.frozen := by
  unfold applyDataPath
  repeat' split
  all_goals simp [setVal]


/-- The CLI step `applyEvalFlag` keeps the lifecycle flag. -/
theorem applyEvalFlag_frozen (c : Config) (a : Args) : (applyEvalFlag c a).frozen = c.frozen := by
  unfold applyEvalFlag
  repeat' split
  all_goals simp [setVal]


/-- The CLI step `applyPretrained` keeps the lifecycle flag. -/
theorem applyPretrained_frozen (c : Config) (a : Args) : (applyPretrained c a).frozen = c.frozen := by
  unfold applyPretrained
  repeat' split
  all_goals simp [setVal]


/-- The CLI step `applyResume` keeps the lifecycle flag. -/
theorem applyResume_frozen (c : Config) (a : Args) : (applyResume c a).frozen = c.frozen := by
  unfold applyResume
  repeat' split
  all_goals simp [setVal]


/-- The CLI step `applyLastEpoch` keeps the lifecycle flag. -/
theorem applyLastEpoch_frozen (c : Config) (a : Args) : (applyLastEpoch c a).frozen = c.frozen := by
  unfold applyLastEpoch
  repeat' split
  all_goals simp [setVal]


/-- The CLI step `applyAmp` keeps the lifecycle flag. -/
theorem applyAmp_frozen (c : Config) (a : Args) : (applyAmp c a).frozen = c.frozen := by
  unfold applyAmp
  repeat' split
  all_goals simp [setVal]

/-- The whole CLI assignment chain keeps the lifecycle flag. -/
theorem applyArgs_frozen (c : Config) (a : Args) : (applyArgs c a).frozen = c.frozen := by
  unfold applyArgs
  rw [applyAmp_frozen, applyLastEpoch_frozen, applyResume_frozen, applyPretrained_frozen,
    applyEvalFlag_frozen, applyDataPath_frozen, applyAccumIter_frozen, applyImageSize_frozen,
    applyBatchSizeEval_frozen, applyBatchSize_frozen, applyDataset_frozen]

/-- The CLI step `applyDataset` leaves every other path unchanged. -/
theorem applyDataset_other (c : Config) (a : Args) (q : List String)
    (hq : q ≠ ["DATA", "DATASET"]) :
    leafAt q (applyDataset c a).tree = leafAt q c.tree := by
  unfold applyDataset
  cases a.dataset with
  | none => rfl
  | some d =>
    by_cases hd : d = ""
    · simp [hd]
    · simp [hd, setVal, leafAt_setPath_ne ["DATA", "DATASET"] q _ _ (Ne.symm hq)]

/-- The CLI step `applyDataset` preserves the schema shape. -/
theorem applyDataset_shape (c : Config) (a : Args) (q : List String) :
    hasLeaf q (applyDataset c a).tree = hasLeaf q c.tree := by
  unfold applyDataset
  cases a.dataset with
  | none => rfl
  | some d =>
    by_cases hd : d = ""
    · simp [hd]
    · simp [hd, setVal, hasLeaf_setPath]

/-- Effect of the CLI step `applyDataset` at its own path: the truthy supplied
value is stored, an absent or falsy one changes nothing. -/
theorem applyDataset_target (c : Config) (a : Args)
    (hc : hasLeaf ["DATA", "DATASET"] c.tree = true) :
    leafAt ["DATA", "DATASET"] (applyDataset c a).tree =
      match a.dataset with
      | some d => if d = "" then leafAt ["DATA", "DATASET"] c.tree else some (CVal.str d)
      | none => leafAt ["DATA", "DATASET"] c.tree := by
  unfold applyDataset
  cases a.dataset with
  | none => rfl
  | some d =>
    by_cases hd : d = ""
    · simp [hd]
    · obtain ⟨u, hu⟩ := Option.isSome_iff_exists.mp hc
      simp [hd, setVal, leafAt_setPath_self ["DATA", "DATASET"] _ _ u hu]

/-- The CLI step `applyBatchSizeEval` leaves every other path unchanged. -/
theorem applyBatchSizeEval_other (c : Config) (a : Args) (q : List String)
    (hq : q ≠ ["DATA", "BATCH_SIZE_EVAL"]) :
    leafAt q (applyBatchSizeEval c a).tree = leafAt q c.tree := by
  unfold applyBatchSizeEval
  cases a.batch_size_eval with
  | none => rfl
  | some d =>
    by_cases hd : d = 0
    · simp [hd]
    · simp [hd, setVal, leafAt_setPath_ne ["DATA", "BATCH_SIZE_EVAL"] q _ _ (Ne.symm hq)]

/-- The CLI step `applyBatchSizeEval` preserves the schema shape. -/
theorem applyBatchSizeEval_shape (c : Config) (a : Args) (q : List String) :
    hasLeaf q (applyBatchSizeEval c a).tree = hasLeaf q c.tree := by
  unfold applyBatchSizeEval
  cases a.batch_size_eval with
  | none => rfl
  | some d =>
    by_cases hd : d = 0
    · simp [hd]
    · simp [hd, setVal, hasLeaf_setPath]

/-- Effect of the CLI step `applyBatchSizeEval` at its own path: the truthy supplied
value is stored, an absent or falsy one changes nothing. -/
theorem applyBatchSizeEval_target (c : Config) (a : Args)
    (hc : hasLeaf ["DATA", "BATCH_SIZE_EVAL"] c.tree = true) :
    leafAt ["DATA", "BATCH_SIZE_EVAL"] (applyBatchSizeEval c a).tree =
      match a.batch_size_eval with
      | some d => if d = 0 then leafAt ["DATA", "BATCH_SIZE_EVAL"] c.tree else some (CVal.int d)
      | none => leafAt ["DATA", "BATCH_SIZE_EVAL"] c.tree := by
  unfold applyBatchSizeEval
  cases a.batch_size_eval with
  | none => rfl
  | some d =>
    by_cases hd : d = 0
    · simp [hd]
    · obtain ⟨u, hu⟩ := Option.isSome_iff_exists.mp hc
      simp [hd, setVal, leafAt_setPath_self ["DATA", "BATCH_SIZE_EVAL"] _ _ u hu]

/-- The CLI step `applyImageSize` leaves every other path unchanged. -/
theorem applyImageSize_other (c : Config) (a : Args) (q : List String)
    (hq : q ≠ ["DATA", "IMAGE_SIZE"]) :
    leafAt q (applyImageSize c a).tree = leafAt q c.tree := by
  unfold applyImageSize
  cases a.image_size with
  | none => rfl
  | some d =>
    by_cases hd : d = 0
    · simp [hd]
    · simp [hd, setVal, leafAt_setPath_ne ["DATA", "IMAGE_SIZE"] q _ _ (Ne.symm hq)]

/-- The CLI step `applyImageSize` preserves the schema shape. -/
theorem applyImageSize_shape (c : Config) (a : Args) (q : List String) :
    hasLeaf q (applyImageSize c a).tree = hasLeaf q c.tree := by
  unfold applyImageSize
  cases a.image_size with
  | none => rfl
  | some d =>
    by_cases hd : d = 0
    · simp [hd]
    · simp [hd, setVal, hasLeaf_setPath]

/-- Effect of the CLI step `applyImageSize` at its own path: the truthy supplied
value is stored, an absent or falsy one changes nothing. -/
theorem applyImageSize_target (c : Config) (a : Args)
    (hc : hasLeaf ["DATA", "IMAGE_SIZE"] c.tree = true) :
    leafAt ["DATA", "IMAGE_SIZE"] (applyImageSize c a).tree =
      match a.image_size with
      | some d => if d = 0 then leafAt ["DATA", "IMAGE_SIZE"] c.tree else some (CVal.int d)
      | none => leafAt ["DATA", "IMAGE_SIZE"] c.tree := by
  unfold applyImageSize
  cases a.image_size with
  | none => rfl
  | some d =>
    by_cases hd : d = 0
    · simp [hd]
    · obtain ⟨u, hu⟩ := Option.isSome_iff_exists.mp hc
      simp [hd, setVal, leafAt_setPath_self ["DATA", "IMAGE_SIZE"] _ _ u hu]

/-- The CLI step `applyAccumIter` leaves every other path unchanged. -/
theorem applyAccumIter_other (c : Config) (a : Args) (q : List String)
    (hq : q ≠ ["TRAIN", "ACCUM_ITER"]) :
    leafAt q (applyAccumIter c a).tree = leafAt q c.tree := by
  unfold applyAccumIter
  cases a.accum_iter with
  | none => rfl
  | some d =>
    by_cases hd : d = 0
    · simp [hd]
    · simp [hd, setVal, leafAt_setPath_ne ["TRAIN", "ACCUM_ITER"] q _ _ (Ne.symm hq)]

/-- The CLI step `applyAccumIter` preserves the schema shape. -/
theorem applyAccumIter_shape (c : Config) (a : Args) (q : List String) :
    hasLeaf q (applyAccumIter c a).tree = hasLeaf q c.tree := by
  unfold applyAccumIter
  cases a.accum_iter with
  | none => rfl
  | some d =>
    by_cases hd : d = 0
    · simp [hd]
    · simp [hd, setVal, hasLeaf_setPath]

/-- Effect of the CLI step `applyAccumIter` at its own path: the truthy supplied
value is stored, an absent or falsy one changes nothing. -/
theorem applyAccumIter_target (c : Config) (a : Args)
    (hc : hasLeaf ["TRAIN", "ACCUM_ITER"] c.tree = true) :
    leafAt ["TRAIN", "ACCUM_ITER"] (applyAccumIter c a).tree =
      match a.accum_iter with
      | some d => if d = 0 then leafAt ["TRAIN", "ACCUM_ITER"] c.tree else some (CVal.int d)
      | none => leafAt ["TRAIN", "ACCUM_ITER"] c.tree := by
  unfold applyAccumIter
  cases a.accum_iter with
  | none => rfl
  | some d =>
    by_cases hd : d = 0
    · simp [hd]
    · obtain ⟨u, hu⟩ := Option.isSome_iff_exists.mp hc
      simp [hd, setVal, leafAt_setPath_self ["TRAIN", "ACCUM_ITER"] _ _ u hu]

/-- The CLI step `applyDataPath` leaves every other path unchanged. -/
theorem applyDataPath_other (c : Config) (a : Args) (q : List String)
    (hq : q ≠ ["DATA", "DATA_PATH"]) :
    leafAt q (applyDataPath c a).tree = leafAt q c.tree := by
  unfold applyDataPath
  cases a.data_path with
  | none => rfl
  | some d =>
    by_cases hd : d = ""
    · simp [hd]
    · simp [hd, setVal, leafAt_setPath_ne ["DATA", "DATA_PATH"] q _ _ (Ne.symm hq)]

/-- The CLI step `applyDataPath` preserves the schema shape. -/
theorem applyDataPath_shape (c : Config) (a : Args) (q : List String) :
    hasLeaf q (applyDataPath c a).tree = hasLeaf q c.tree := by
  unfold applyDataPath
  cases a.data_path with
  | none => rfl
  | some d =>
    by_cases hd : d = ""
    · simp [hd]
    · simp [hd, setVal, hasLeaf_setPath]

/-- Effect of the CLI step `applyDataPath` at its own path: the truthy supplied
value is stored, an absent or falsy one changes nothing. -/
theorem applyDataPath_target (c : Config) (a : Args)
    (hc : hasLeaf ["DATA", "DATA_PATH"] c.tree = true) :
    leafAt ["DATA", "DATA_PATH"] (applyDataPath c a).tree =
      match a.data_path with
      | some d => if d = "" then leafAt ["DATA", "DATA_PATH"] c.tree else some (CVal.str d)
      | none => leafAt ["DATA", "DATA_PATH"] c.tree := by
  unfold applyDataPath
  cases a.data_path with
  | none => rfl
  | some d =>
    by_cases hd : d = ""
    · simp [hd]
    · obtain ⟨u, hu⟩ := Option.isSome_iff_exists.mp hc
      simp [hd, setVal, leafAt_setPath_self ["DATA", "DATA_PATH"] _ _ u hu]

/-- The CLI step `applyPretrained` leaves every other path unchanged. -/
theorem applyPretrained_other (c : Config) (a : Args) (q : List String)
    (hq : q ≠ ["MODEL", "PRETRAINED"]) :
    leafAt q (applyPretrained c a).tree = leafAt q c.tree := by
  unfold applyPretrained
  cases a.pretrained with
  | none => rfl
  | some d =>
    by_cases hd : d = ""
    · simp [hd]
    · simp [hd, setVal, leafAt_setPath_ne ["MODEL", "PRETRAINED"] q _ _ (Ne.symm hq)]

/-- The CLI step `applyPretrained` preserves the schema shape. -/
theorem applyPretrained_shape (c : Config) (a : Args) (q : List String) :
    hasLeaf q (applyPretrained c a).tree = hasLeaf q c.tree := by
  unfold applyPretrained
  cases a.pretrained with
  | none => rfl
  | some d =>
    by_cases hd : d = ""
    · simp [hd]
    · simp [hd, setVal, hasLeaf_setPath]

/-- Effect of the CLI step `applyPretrained` at its own path: the truthy supplied
value is stored, an absent or falsy one changes nothing. -/
theorem applyPretrained_target (c : Config) (a : Args)
    (hc : hasLeaf ["MODEL", "PRETRAINED"] c.tree = true) :
    leafAt ["MODEL", "PRETRAINED"] (applyPretrained c a).tree =
      match a.pretrained with
      | some d => if d = "" then leafAt ["MODEL", "PRETRAINED"] c.tree else some (CVal.str d)
      | none => leafAt ["MODEL", "PRETRAINED"] c.tree := by
  unfold applyPretrained
  cases a.pretrained with
  | none => rfl
  | some d =>
    by_cases hd : d = ""
    · simp [hd]
    · obtain ⟨u, hu⟩ := Option.isSome_iff_exists.mp hc
      simp [hd, setVal, leafAt_setPath_self ["MODEL", "PRETRAINED"] _ _ u hu]

/-- The CLI step `applyResume` leaves every other path unchanged. -/
theorem applyResume_other (c : Config) (a : Args) (q : List String)
    (hq : q ≠ ["MODEL", "RESUME"]) :
    leafAt q (applyResume c a).tree = leafAt q c.tree := by
  unfold applyResume
  cases a.resume with
  | none => rfl
  | some d =>
    by_cases hd : d = ""
    · simp [hd]
    · simp [hd, setVal, leafAt_setPath_ne ["MODEL", "RESUME"] q _ _ (Ne.symm hq)]

/-- The CLI step `applyResume` preserves the schema shape. -/
theorem applyResume_shape (c : Config) (a : Args) (q : List String) :
    hasLeaf q (applyResume c a).tree = hasLeaf q c.tree := by
  unfold applyResume
  cases a.resume with
  | none => rfl
  | some d =>
    by_cases hd : d = ""
    · simp [hd]
    · simp [hd, setVal, hasLeaf_setPath]

/-- Effect of the CLI step `applyResume` at its own path: the truthy supplied
value is stored, an absent or falsy one changes nothing. -/
theorem applyResume_target (c : Config) (a : Args)
    (hc : hasLeaf ["MODEL", "RESUME"] c.tree = true) :
    leafAt ["MODEL", "RESUME"] (applyResume c a).tree =
      match a.resume with
      | some d => if d = "" then leafAt ["MODEL", "RESUME"] c.tree else some (CVal.str d)
      | none => leafAt ["MODEL", "RESUME"] c.tree := by
  unfold applyResume
  cases a.resume with
  | none => rfl
  | some d =>
    by_cases hd : d = ""
    · simp [hd]
    · obtain ⟨u, hu⟩ := Option.isSome_iff_exists.mp hc
      simp [hd, setVal, leafAt_setPath_self ["MODEL", "RESUME"] _ _ u hu]

/-- The CLI step `applyLastEpoch` leaves every other path unchanged. -/
theorem applyLastEpoch_other (c : Config) (a : Args) (q : List String)
    (hq : q ≠ ["TRAIN", "LAST_EPOCH"]) :
    leafAt q (applyLastEpoch c a).tree = leafAt q c.tree := by
  unfold applyLastEpoch
  cases a.last_epoch with
  | none => rfl
  | some d =>
    by_cases hd : d = 0
    · simp [hd]
    · simp [hd, setVal, leafAt_setPath_ne ["TRAIN", "LAST_EPOCH"] q _ _ (Ne.symm hq)]

/-- The CLI step `applyLastEpoch` preserves the schema shape. -/
theorem applyLastEpoch_shape (c : Config) (a : Args) (q : List String) :
    hasLeaf q (applyLastEpoch c a).tree = hasLeaf q c.tree := by
  unfold applyLastEpoch
  cases a.last_epoch with
  | none => rfl
  | some d =>
    by_cases hd : d = 0
    · simp [hd]
    · simp [hd, setVal, hasLeaf_setPath]

/-- Effect of the CLI step `applyLastEpoch` at its own path: the truthy supplied
value is stored, an absent or falsy one changes nothing. -/
theorem applyLastEpoch_target (c : Config) (a : Args)
    (hc : hasLeaf ["TRAIN", "LAST_EPOCH"] c.tree = true) :
    leafAt ["TRAIN", "LAST_EPOCH"] (applyLastEpoch c a).tree =
      match a.last_epoch with
      | some d => if d = 0 then leafAt ["TRAIN", "LAST_EPOCH"] c.tree else some (CVal.int d)
      | none => leafAt ["TRAIN", "LAST_EPOCH"] c.tree := by
  unfold applyLastEpoch
  cases a.last_epoch with
  | none => rfl
  | some d =>
    by_cases hd : d = 0
    · simp [hd]
    · obtain ⟨u, hu⟩ := Option.isSome_iff_exists.mp hc
      simp [hd, setVal, leafAt_setPath_self ["TRAIN", "LAST_EPOCH"] _ _ u hu]

/-- The CLI step `applyBatchSize` leaves paths other than the two batch-size
fields unchanged. -/
theorem applyBatchSize_other (c : Config) (a : Args) (q : List String)
    (hq1 : q ≠ ["DATA", "BATCH_SIZE"]) (hq2 : q ≠ ["DATA", "BATCH_SIZE_EVAL"]) :
    leafAt q (applyBatchSize c a).tree = leafAt q c.tree := by
  unfold applyBatchSize
  cases a.batch_size with
  | none => rfl
  | some n =>
    by_cases hn : n = 0
    · simp [hn]
    · simp [hn, setVal, leafAt_setPath_ne ["DATA", "BATCH_SIZE_EVAL"] q _ _ (Ne.symm hq2),
        leafAt_setPath_ne ["DATA", "BATCH_SIZE"] q _ _ (Ne.symm hq1)]

/-- The CLI step `applyBatchSize` preserves the schema shape. -/
theorem applyBatchSize_shape (c : Config) (a : Args) (q : List String) :
    hasLeaf q (applyBatchSize c a).tree = hasLeaf q c.tree := by
  unfold applyBatchSize
  cases a.batch_size with
  | none => rfl
  | some n =>
    by_cases hn : n = 0
    · simp [hn]
    · simp [hn, setVal, hasLeaf_setPath]

/-- Effect of `applyBatchSize` at `DATA.BATCH_SIZE`: a truthy batch size is
stored, an absent or zero one changes nothing. -/
theorem applyBatchSize_target_bs (c : Config) (a : Args)
    (hc : hasLeaf ["DATA", "BATCH_SIZE"] c.tree = true) :
    leafAt ["DATA", "BATCH_SIZE"] (applyBatchSize c a).tree =
      match a.batch_size with
      | some n => if n = 0 then leafAt ["DATA", "BATCH_SIZE"] c.tree else some (CVal.int n)
      | none => leafAt ["DATA", "BATCH_SIZE"] c.tree := by
  unfold applyBatchSize
  cases a.batch_size with
  | none => rfl
  | some n =>
    by_cases hn : n = 0
    · simp [hn]
    · obtain ⟨u, hu⟩ := Option.isSome_iff_exists.mp hc
      have hbs : leafAt ["DATA", "BATCH_SIZE"] (setPath ["DATA", "BATCH_SIZE"] (CVal.int n) c.tree) =
          some (CVal.int n) := leafAt_setPath_self ["DATA", "BATCH_SIZE"] _ _ u hu
      simp [hn, setVal,
        leafAt_setPath_ne ["DATA", "BATCH_SIZE_EVAL"] ["DATA", "BATCH_SIZE"] _ _ (by simp), hbs]

/-- Effect of `applyBatchSize` at `DATA.BATCH_SIZE_EVAL`: a truthy batch
size is stored there as well. -/
theorem applyBatchSize_target_bse (c : Config) (a : Args)
    (hc : hasLeaf ["DATA", "BATCH_SIZE_EVAL"] c.tree = true) :
    leafAt ["DATA", "BATCH_SIZE_EVAL"] (applyBatchSize c a).tree =
      match a.batch_size with
      | some n => if n = 0 then leafAt ["DATA", "BATCH_SIZE_EVAL"] c.tree else some (CVal.int n)
      | none => leafAt ["DATA", "BATCH_SIZE_EVAL"] c.tree := by
  unfold applyBatchSize
  cases a.batch_size with
  | none => rfl
  | some n =>
    by_cases hn : n = 0
    · simp [hn]
    · have hc2 : (leafAt ["DATA", "BATCH_SIZE_EVAL"]
          (setPath ["DATA", "BATCH_SIZE"] (CVal.int n) c.tree)).isSome = true := by
        have := hasLeaf_setPath ["DATA", "BATCH_SIZE"] ["DATA", "BATCH_SIZE_EVAL"] (CVal.int n) c.tree
        unfold hasLeaf at this
        rw [this]
        exact hc
      obtain ⟨u, hu⟩ := Option.isSome_iff_exists.mp hc2
      simp [hn, setVal, leafAt_setPath_self ["DATA", "BATCH_SIZE_EVAL"] _ _ u hu]

/-- The CLI step `applyEvalFlag` leaves every path other than `EVAL`
unchanged. -/
theorem applyEvalFlag_other (c : Config) (a : Args) (q : List String)
    (hq : q ≠ ["EVAL"]) :
    leafAt q (applyEvalFlag c a).tree = leafAt q c.tree := by
  unfold applyEvalFlag
  by_cases he : a.eval
  · simp [he, setVal, leafAt_setPath_ne ["EVAL"] q _ _ (Ne.symm hq)]
  · simp [he]

/-- The CLI step `applyEvalFlag` preserves the schema shape. -/
theorem applyEvalFlag_shape (c : Config) (a : Args) (q : List String) :
    hasLeaf q (applyEvalFlag c a).tree = hasLeaf q c.tree := by
  unfold applyEvalFlag
  by_cases he : a.eval
  · simp [he, setVal, hasLeaf_setPath]
  · simp [he]

/-- Effect of `applyEvalFlag` at `EVAL`: a supplied eval flag stores true,
otherwise nothing changes. -/
theorem applyEvalFlag_target (c : Config) (a : Args)
    (hc : hasLeaf ["EVAL"] c.tree = true) :
    leafAt ["EVAL"] (applyEvalFlag c a).tree =
      if a.eval then some (CVal.bool true) else leafAt ["EVAL"] c.tree := by
  unfold applyEvalFlag
  by_cases he : a.eval
  · obtain ⟨u, hu⟩ := Option.isSome_iff_exists.mp hc
    simp [he, setVal, leafAt_setPath_self ["EVAL"] _ _ u hu]
  · simp [he]

/-- The CLI step `applyAmp` leaves every path other than `AMP` unchanged. -/
theorem applyAmp_other (c : Config) (a : Args) (q : List String)
    (hq : q ≠ ["AMP"]) :
    leafAt q (applyAmp c a).tree = leafAt q c.tree := by
  unfold applyAmp
  by_cases hm : a.amp
  · simp [hm, setVal, leafAt_setPath_ne ["AMP"] q _ _ (Ne.symm hq)]
  · simp [hm]

/-- The CLI step `applyAmp` preserves the schema shape. -/
theorem applyAmp_shape (c : Config) (a : Args) (q : List String) :
    hasLeaf q (applyAmp c a).tree = hasLeaf q c.tree := by
  unfold applyAmp
  by_cases hm : a.amp
  · simp [hm, setVal, hasLeaf_setPath]
  · simp [hm]

/-- Effect of `applyAmp` at `AMP`: a supplied amp flag stores the negation
of the truthiness of the current `EVAL`, otherwise nothing changes. -/
theorem applyAmp_target (c : Config) (a : Args)
    (hc : hasLeaf ["AMP"] c.tree = true) :
    leafAt ["AMP"] (applyAmp c a).tree =
      if a.amp then some (CVal.bool (!cvalTruthy (getValAt ["EVAL"] c)))
      else leafAt ["AMP"] c.tree := by
  unfold applyAmp
  by_cases hm : a.amp
  · obtain ⟨u, hu⟩ := Option.isSome_iff_exists.mp hc
    simp [hm, setVal, leafAt_setPath_self ["AMP"] _ _ u hu]
  · simp [hm]

/-- Unfolding of one recursion step for a file whose BASE entries are all
empty: only the file's own keys are merged. -/
theorem updateConfigFromFile_leafOnly (n : Nat) (fs : FS) (f : String) (d : YamlDoc)
    (cfg : Config) (hf : lookupFS fs f = some d) (hb : ∀ b ∈ docBase d, b = "") :
    updateConfigFromFile (Nat.succ n) fs f cfg =
      match mergeOwnKeys (defrost cfg) d with
      | Except.ok c => Except.ok (freeze c)
      | Except.error e => Except.error e := by
  simp only [updateConfigFromFile, hf]
  rw [mergeBasesWith_allEmpty _ _ _ _ hb]
  cases h : mergeOwnKeys (defrost cfg) d <;> simp [h]

/-- Unfolding of one recursion step for a file with exactly one non-empty
BASE entry: the base file is processed first, then the file's own keys. -/
theorem updateConfigFromFile_oneBase (n : Nat) (fs : FS) (f : String) (d : YamlDoc)
    (g : String) (cfg : Config) (hf : lookupFS fs f = some d)
    (hb : docBase d = [g]) (hg : g ≠ "") :
    updateConfigFromFile (Nat.succ n) fs f cfg =
      match updateConfigFromFile n fs (osJoin (osDirname f) g) (defrost cfg) with
      | Except.error e => Except.error e
      | Except.ok cb =>
        match mergeOwnKeys cb d with
        | Except.error e => Except.error e
        | Except.ok c => Except.ok (freeze c) := by
  simp only [updateConfigFromFile, hf, hb]
  simp only [mergeBasesWith, if_neg hg]
  cases hrec : updateConfigFromFile n fs (osJoin (osDirname f) g) (defrost cfg) with
  | error e => rfl
  | ok cb => simp [mergeBasesWith]

/-- C1: BASE chaining is order-equivalent to sequential merging.  For files
A (BASE empty), B (BASE=[A]) and C (BASE=[B]) in the same directory,
merging C via `_update_config_from_file` gives exactly the result of
merging A's own keys, then B's own keys, then C's own keys into the config
(so every base is applied before the leaf file's own keys, depth first and
left to right, and a later file's assignment to a key overwrites an earlier
one). -/
theorem base_chain_seq_equiv (n : Nat) (fs : FS) (dA dB dC : YamlDoc) (cfg : Config)
    (hA : lookupFS fs "A.yaml" = some dA) (hB : lookupFS fs "B.yaml" = some dB)
    (hC : lookupFS fs "C.yaml" = some dC)
    (hbA : ∀ b ∈ docBase dA, b = "") (hbB : docBase dB = ["A.yaml"])
    (hbC : docBase dC = ["B.yaml"]) :
    updateConfigFromFile (n + 3) fs "C.yaml" cfg = seqMergeThree cfg dA dB dC := by
  have e3 : n + 3 = Nat.succ (n + 2) := rfl
  rw [e3, updateConfigFromFile_oneBase (n + 2) fs "C.yaml" dC "B.yaml" cfg hC hbC (by decide)]
  have hj1 : osJoin (osDirname "C.yaml") "B.yaml" = "B.yaml" := rfl
  rw [hj1]
  have e2 : n + 2 = Nat.succ (n + 1) := rfl
  rw [e2, updateConfigFromFile_oneBase (n + 1) fs "B.yaml" dB "A.yaml" (defrost cfg) hB hbB (by decide)]
  have hj2 : osJoin (osDirname "B.yaml") "A.yaml" = "A.yaml" := rfl
  rw [hj2]
  have e1 : n + 1 = Nat.succ n := rfl
  rw [e1, updateConfigFromFile_leafOnly n fs "A.yaml" dA (defrost (defrost cfg)) hA hbA]
  have hdd : defrost (defrost (defrost cfg)) = defrost cfg := rfl
  rw [hdd]
  unfold seqMergeThree mergeOwnKeys
  cases h1 : mergeTree dA (defrost cfg).tree with
  | error e => simp [h1]
  | ok t1 =>
    cases h2 : mergeTree dB t1 with
    | error e => simp [h1, freeze, h2]
    | ok t2 =>
      cases h3 : mergeTree dC t2 with
      | error e => simp [h1, freeze, h2, h3]
      | ok t3 => simp [h1, freeze, h2, h3]

/-- C2: unknown-key rejection.  If the yaml file contains any key path that
is absent from the config's schema, the recursive merge never returns a
config (first conjunct, for arbitrary BASE chains: the error may only be
observed, never a partially merged config), and for a file without
non-empty BASE entries the failure is precisely a SchemaError (second
conjunct).  The merge operation itself is modelled from the spec as
validate-then-apply, so a failing merge applies no key at all. -/
theorem unknown_key_rejected (fuel : Nat) (fs : FS) (f : String) (d : YamlDoc)
    (cfg : Config) (kv : List String × CVal)
    (hf : lookupFS fs f = some d) (hkv : kv ∈ d)
    (hbad : hasLeaf kv.1 cfg.tree = false) :
    (∀ out, updateConfigFromFile fuel fs f cfg ≠ Except.ok out) ∧
    ((∀ b ∈ docBase d, b = "") → ∀ n, fuel = Nat.succ n →
      updateConfigFromFile fuel fs f cfg = Except.error CErr.schemaError) := by
  constructor
  · intro out hok
    cases fuel with
    | zero => simp [updateConfigFromFile] at hok
    | succ n =>
      simp only [updateConfigFromFile, hf] at hok
      cases hbases : mergeBasesWith (updateConfigFromFile n fs) (osDirname f) (docBase d) (defrost cfg) with
      | error e => rw [hbases] at hok; dsimp only at hok; exact absurd hok (by simp)
      | ok cb =>
        rw [hbases] at hok
        dsimp only at hok
        cases hmerge : mergeOwnKeys cb d with
        | error e => rw [hmerge] at hok; dsimp only at hok; exact absurd hok (by simp)
        | ok cm =>
          have hgood : hasLeaf kv.1 cb.tree = true := mergeOwnKeys_schema cb d cm hmerge kv hkv
          have hsh : hasLeaf kv.1 cb.tree = hasLeaf kv.1 cfg.tree :=
            mergeBasesWith_shape (updateConfigFromFile n fs)
              (fun g d1 d2 hg => updateConfigFromFile_shape n fs g d1 d2 hg) (osDirname f)
              (docBase d) (defrost cfg) cb hbases kv.1
          rw [hgood, hbad] at hsh
          exact absurd hsh (by simp)
  · intro hb n hn
    subst hn
    rw [updateConfigFromFile_leafOnly n fs f d cfg hf hb]
    have hall : d.all (fun kv => hasLeaf kv.1 (defrost cfg).tree) = false := by
      apply List.all_eq_false.mpr
      exact ⟨kv, hkv, by simp [defrost, hbad]⟩
    unfold mergeOwnKeys mergeTree
    rw [hall]
    rfl

/-- With no `cfg` option, `update_config` always succeeds and just runs the
CLI assignment chain on the defrosted config. -/
theorem update_config_noFile (fuel : Nat) (fs : FS) (cfg : Config) (args : Args)
    (hc : args.cfg = none) :
    update_config fuel fs cfg args = Except.ok (applyArgs (defrost cfg) args) := by
  unfold update_config
  rw [hc]

/-- C3: CLI batch-size precedence.  On any config with the two batch-size
keys, `update_config` with `batch_size=32` and `batch_size_eval` absent
stores 32 in both `DATA.BATCH_SIZE` and `DATA.BATCH_SIZE_EVAL`; with
`batch_size=32` and `batch_size_eval=16`, it stores 32 and 16 respectively
(the eval override is applied after the shared default). -/
theorem cli_batch_precedence (fuel : Nat) (fs : FS) (cfg : Config)
    (hbs : hasLeaf ["DATA", "BATCH_SIZE"] cfg.tree = true)
    (hbse : hasLeaf ["DATA", "BATCH_SIZE_EVAL"] cfg.tree = true) :
    (∀ out, update_config fuel fs cfg
        (Args.mk none none (some 32) none none none none false none none none false) =
        Except.ok out →
      leafAt ["DATA", "BATCH_SIZE"] out.tree = some (CVal.int 32) ∧
      leafAt ["DATA", "BATCH_SIZE_EVAL"] out.tree = some (CVal.int 32)) ∧
    (∀ out, update_config fuel fs cfg
        (Args.mk none none (some 32) (some 16) none none none false none none none false) =
        Except.ok out →
      leafAt ["DATA", "BATCH_SIZE"] out.tree = some (CVal.int 32) ∧
      leafAt ["DATA", "BATCH_SIZE_EVAL"] out.tree = some (CVal.int 16)) := by
  obtain ⟨u1, hu1⟩ := Option.isSome_iff_exists.mp hbs
  obtain ⟨u2, hu2⟩ := Option.isSome_iff_exists.mp hbse
  have hne : (["DATA", "BATCH_SIZE_EVAL"] : List String) ≠ ["DATA", "BATCH_SIZE"] := by decide
  constructor
  · intro out hok
    have hred : update_config fuel fs cfg
        (Args.mk none none (some 32) none none none none false none none none false) =
        Except.ok (setVal ["DATA", "BATCH_SIZE_EVAL"] (CVal.int 32)
          (setVal ["DATA", "BATCH_SIZE"] (CVal.int 32) (defrost cfg))) := rfl
    rw [hred] at hok
    have hout := Except.ok.inj hok
    subst hout
    constructor
    · rw [show (setVal ["DATA", "BATCH_SIZE_EVAL"] (CVal.int 32)
          (setVal ["DATA", "BATCH_SIZE"] (CVal.int 32) (defrost cfg))).tree =
          setPath ["DATA", "BATCH_SIZE_EVAL"] (CVal.int 32)
            (setPath ["DATA", "BATCH_SIZE"] (CVal.int 32) cfg.tree) from rfl]
      rw [leafAt_setPath_ne _ _ _ _ hne]
      exact leafAt_setPath_self _ _ _ u1 hu1
    · rw [show (setVal ["DATA", "BATCH_SIZE_EVAL"] (CVal.int 32)
          (setVal ["DATA", "BATCH_SIZE"] (CVal.int 32) (defrost cfg))).tree =
          setPath ["DATA", "BATCH_SIZE_EVAL"] (CVal.int 32)
            (setPath ["DATA", "BATCH_SIZE"] (CVal.int 32) cfg.tree) from rfl]
      have hsh : (leafAt ["DATA", "BATCH_SIZE_EVAL"]
          (setPath ["DATA", "BATCH_SIZE"] (CVal.int 32) cfg.tree)).isSome = true := by
        have := hasLeaf_setPath ["DATA", "BATCH_SIZE"] ["DATA", "BATCH_SIZE_EVAL"]
          (CVal.int 32) cfg.tree
        unfold hasLeaf at this
        rw [this]
        exact hbse
      obtain ⟨u3, hu3⟩ := Option.isSome_iff_exists.mp hsh
      exact leafAt_setPath_self _ _ _ u3 hu3
  · intro out hok
    have hred : update_config fuel fs cfg
        (Args.mk none none (some 32) (some 16) none none none false none none none false) =
        Except.ok (setVal ["DATA", "BATCH_SIZE_EVAL"] (CVal.int 16)
          (setVal ["DATA", "BATCH_SIZE_EVAL"] (CVal.int 32)
            (setVal ["DATA", "BATCH_SIZE"] (CVal.int 32) (defrost cfg)))) := rfl
    rw [hred] at hok
    have hout := Except.ok.inj hok
    subst hout
    constructor
    · rw [show (setVal ["DATA", "BATCH_SIZE_EVAL"] (CVal.int 16)
          (setVal ["DATA", "BATCH_SIZE_EVAL"] (CVal.int 32)
            (setVal ["DATA", "BATCH_SIZE"] (CVal.int 32) (defrost cfg)))).tree =
          setPath ["DATA", "BATCH_SIZE_EVAL"] (CVal.int 16)
            (setPath ["DATA", "BATCH_SIZE_EVAL"] (CVal.int 32)
              (setPath ["DATA", "BATCH_SIZE"] (CVal.int 32) cfg.tree)) from rfl]
      rw [leafAt_setPath_ne _ _ _ _ hne, leafAt_setPath_ne _ _ _ _ hne]
      exact leafAt_setPath_self _ _ _ u1 hu1
    · rw [show (setVal ["DATA", "BATCH_SIZE_EVAL"] (CVal.int 16)
          (setVal ["DATA", "BATCH_SIZE_EVAL"] (CVal.int 32)
            (setVal ["DATA", "BATCH_SIZE"] (CVal.int 32) (defrost cfg)))).tree =
          setPath ["DATA", "BATCH_SIZE_EVAL"] (CVal.int 16)
            (setPath ["DATA", "BATCH_SIZE_EVAL"] (CVal.int 32)
              (setPath ["DATA", "BATCH_SIZE"] (CVal.int 32) cfg.tree)) from rfl]
      have hsh : (leafAt ["DATA", "BATCH_SIZE_EVAL"]
          (setPath ["DATA", "BATCH_SIZE_EVAL"] (CVal.int 32)
            (setPath ["DATA", "BATCH_SIZE"] (CVal.int 32) cfg.tree))).isSome = true := by
        have h1 := hasLeaf_setPath ["DATA", "BATCH_SIZE"] ["DATA", "BATCH_SIZE_EVAL"]
          (CVal.int 32) cfg.tree
        have h2 := hasLeaf_setPath ["DATA", "BATCH_SIZE_EVAL"] ["DATA", "BATCH_SIZE_EVAL"]
          (CVal.int 32) (setPath ["DATA", "BATCH_SIZE"] (CVal.int 32) cfg.tree)
        unfold hasLeaf at h1 h2
        rw [h2, h1]
        exact hbse
      obtain ⟨u3, hu3⟩ := Option.isSome_iff_exists.mp hsh
      exact leafAt_setPath_self _ _ _ u3 hu3

/-- C4: AMP gating.  On any config with the `EVAL` and `AMP` keys,
`update_config` with `eval=true` and `amp=true` yields `EVAL=true` and
`AMP=false`; with `eval=false` and `amp=true` on a config whose `EVAL` is
false, it yields `AMP=true`.  The amp flag stores the negation of `EVAL` as
read after the eval flag has been applied. -/
theorem amp_gating (fuel : Nat) (fs : FS) (cfg : Config)
    (hev : hasLeaf ["EVAL"] cfg.tree = true)
    (hamp : hasLeaf ["AMP"] cfg.tree = true) :
    (∀ out, update_config fuel fs cfg
        (Args.mk none none none none none none none true none none none true) =
        Except.ok out →
      leafAt ["EVAL"] out.tree = some (CVal.bool true) ∧
      leafAt ["AMP"] out.tree = some (CVal.bool false)) ∧
    (leafAt ["EVAL"] cfg.tree = some (CVal.bool false) →
      ∀ out, update_config fuel fs cfg
        (Args.mk none none none none none none none false none none none true) =
        Except.ok out →
      leafAt ["AMP"] out.tree = some (CVal.bool true)) := by
  obtain ⟨u1, hu1⟩ := Option.isSome_iff_exists.mp hev
  obtain ⟨u2, hu2⟩ := Option.isSome_iff_exists.mp hamp
  have hne : (["AMP"] : List String) ≠ ["EVAL"] := by decide
  constructor
  · intro out hok
    have hred : update_config fuel fs cfg
        (Args.mk none none none none none none none true none none none true) =
        Except.ok (applyAmp (setVal ["EVAL"] (CVal.bool true) (defrost cfg))
          (Args.mk none none none none none none none true none none none true)) := rfl
    rw [hred] at hok
    have hout := Except.ok.inj hok
    subst hout
    have hgv : getValAt ["EVAL"] (setVal ["EVAL"] (CVal.bool true) (defrost cfg)) =
        CVal.bool true := by
      unfold getValAt
      rw [show (setVal ["EVAL"] (CVal.bool true) (defrost cfg)).tree =
        setPath ["EVAL"] (CVal.bool true) cfg.tree from rfl]
      rw [leafAt_setPath_self _ _ _ u1 hu1]
    have hsh : hasLeaf ["AMP"] (setVal ["EVAL"] (CVal.bool true) (defrost cfg)).tree = true := by
      rw [show (setVal ["EVAL"] (CVal.bool true) (defrost cfg)).tree =
        setPath ["EVAL"] (CVal.bool true) cfg.tree from rfl]
      rw [hasLeaf_setPath]
      exact hamp
    constructor
    · rw [applyAmp_other _ _ ["EVAL"] (by decide)]
      rw [show (setVal ["EVAL"] (CVal.bool true) (defrost cfg)).tree =
        setPath ["EVAL"] (CVal.bool true) cfg.tree from rfl]
      exact leafAt_setPath_self _ _ _ u1 hu1
    · rw [applyAmp_target _ _ hsh, hgv]
      simp [cvalTruthy]
  · intro hevfalse out hok
    have hred : update_config fuel fs cfg
        (Args.mk none none none none none none none false none none none true) =
        Except.ok (applyAmp (defrost cfg)
          (Args.mk none none none none none none none false none none none true)) := rfl
    rw [hred] at hok
    have hout := Except.ok.inj hok
    subst hout
    have hgv : getValAt ["EVAL"] (defrost cfg) = CVal.bool false := by
      unfold getValAt
      rw [show (defrost cfg).tree = cfg.tree from rfl, hevfalse]
    have hsh : hasLeaf ["AMP"] (defrost cfg).tree = true := hamp
    rw [applyAmp_target _ _ hsh, hgv]
    simp [cvalTruthy]

/-- C5 counterexample: a present-but-zero `last_epoch=0` is not applied.
On a config whose `TRAIN.LAST_EPOCH` is 5, `update_config` with
`last_epoch = 0` supplied leaves the value 5 (the claim predicts 0): the
source guards each option with Python truthiness, not a null test. -/
theorem cli_present_zero_not_applied :
    (update_config 1 []
        (Config.mk (setPath ["TRAIN", "LAST_EPOCH"] (CVal.int 5) defaultCTree) false)
        (Args.mk none none none none none none none false none none (some 0) false)).map
        (fun c => leafAt ["TRAIN", "LAST_EPOCH"] c.tree) =
      Except.ok (some (CVal.int 5)) ∧ CVal.int 5 ≠ CVal.int 0 := by
  exact ⟨rfl, by decide⟩

/-- C5 as amended: each CLI option is applied onto its config path exactly
when it is Python-truthy — present and non-zero for integers, present and
non-empty for strings, true for the flags — and leaves the field unchanged
otherwise; in particular a present-but-zero value such as `last_epoch=0` is
NOT applied.  `batch_size` feeds both batch fields before `batch_size_eval`
overrides the eval field, and the amp flag stores the negation of the EVAL
value read after the eval flag was applied. -/
theorem cli_truthy_override (fuel : Nat) (fs : FS) (cfg : Config) (args : Args) (out : Config)
    (hc : args.cfg = none)
    (hDS : hasLeaf ["DATA", "DATASET"] cfg.tree = true)
    (hBS : hasLeaf ["DATA", "BATCH_SIZE"] cfg.tree = true)
    (hBSE : hasLeaf ["DATA", "BATCH_SIZE_EVAL"] cfg.tree = true)
    (hIS : hasLeaf ["DATA", "IMAGE_SIZE"] cfg.tree = true)
    (hAI : hasLeaf ["TRAIN", "ACCUM_ITER"] cfg.tree = true)
    (hDP : hasLeaf ["DATA", "DATA_PATH"] cfg.tree = true)
    (hEV : hasLeaf ["EVAL"] cfg.tree = true)
    (hPT : hasLeaf ["MODEL", "PRETRAINED"] cfg.tree = true)
    (hRS : hasLeaf ["MODEL", "RESUME"] cfg.tree = true)
    (hLE : hasLeaf ["TRAIN", "LAST_EPOCH"] cfg.tree = true)
    (hAM : hasLeaf ["AMP"] cfg.tree = true)
    (hok : update_config fuel fs cfg args = Except.ok out) :
    leafAt ["DATA", "DATASET"] out.tree =
      pyOverrideStr args.dataset (leafAt ["DATA", "DATASET"] cfg.tree) ∧
    leafAt ["DATA", "BATCH_SIZE"] out.tree =
      pyOverrideInt args.batch_size (leafAt ["DATA", "BATCH_SIZE"] cfg.tree) ∧
    leafAt ["DATA", "BATCH_SIZE_EVAL"] out.tree =
      pyOverrideInt args.batch_size_eval
        (pyOverrideInt args.batch_size (leafAt ["DATA", "BATCH_SIZE_EVAL"] cfg.tree)) ∧
    leafAt ["DATA", "IMAGE_SIZE"] out.tree =
      pyOverrideInt args.image_size (leafAt ["DATA", "IMAGE_SIZE"] cfg.tree) ∧
    leafAt ["TRAIN", "ACCUM_ITER"] out.tree =
      pyOverrideInt args.accum_iter (leafAt ["TRAIN", "ACCUM_ITER"] cfg.tree) ∧
    leafAt ["DATA", "DATA_PATH"] out.tree =
      pyOverrideStr args.data_path (leafAt ["DATA", "DATA_PATH"] cfg.tree) ∧
    leafAt ["EVAL"] out.tree =
      (if args.eval then some (CVal.bool true) else leafAt ["EVAL"] cfg.tree) ∧
    leafAt ["MODEL", "PRETRAINED"] out.tree =
      pyOverrideStr args.pretrained (leafAt ["MODEL", "PRETRAINED"] cfg.tree) ∧
    leafAt ["MODEL", "RESUME"] out.tree =
      pyOverrideStr args.resume (leafAt ["MODEL", "RESUME"] cfg.tree) ∧
    leafAt ["TRAIN", "LAST_EPOCH"] out.tree =
      pyOverrideInt args.last_epoch (leafAt ["TRAIN", "LAST_EPOCH"] cfg.tree) ∧
    leafAt ["AMP"] out.tree =
      (if args.amp then
        some (CVal.bool (!cvalTruthy
          (if args.eval then CVal.bool true else getValAt ["EVAL"] cfg)))
      else leafAt ["AMP"] cfg.tree) := by
  rw [update_config_noFile fuel fs cfg args hc] at hok
  have hout := Except.ok.inj hok
  subst hout
  have hgoal : applyArgs (defrost cfg) args = (applyAmp (applyLastEpoch (applyResume (applyPretrained (applyEvalFlag (applyDataPath (applyAccumIter (applyImageSize (applyBatchSizeEval (applyBatchSize (applyDataset (defrost cfg) args) args) args) args) args) args) args) args) args) args) args) := rfl
  rw [hgoal]
  refine ⟨?_, ?_, ?_, ?_, ?_, ?_, ?_, ?_, ?_, ?_, ?_⟩
  · rw [applyAmp_other _ args ["DATA", "DATASET"] (by decide),
      applyLastEpoch_other _ args ["DATA", "DATASET"] (by decide),
      applyResume_other _ args ["DATA", "DATASET"] (by decide),
      applyPretrained_other _ args ["DATA", "DATASET"] (by decide),
      applyEvalFlag_other _ args ["DATA", "DATASET"] (by decide),
      applyDataPath_other _ args ["DATA", "DATASET"] (by decide),
      applyAccumIter_other _ args ["DATA", "DATASET"] (by decide),
      applyImageSize_other _ args ["DATA", "DATASET"] (by decide),
      applyBatchSizeEval_other _ args ["DATA", "DATASET"] (by decide),
      applyBatchSize_other _ args ["DATA", "DATASET"] (by decide) (by decide),
      applyDataset_target _ args (show hasLeaf ["DATA", "DATASET"] (defrost cfg).tree = true from hDS)]
    rfl
  · rw [applyAmp_other _ args ["DATA", "BATCH_SIZE"] (by decide),
      applyLastEpoch_other _ args ["DATA", "BATCH_SIZE"] (by decide),
      applyResume_other _ args ["DATA", "BATCH_SIZE"] (by decide),
      applyPretrained_other _ args ["DATA", "BATCH_SIZE"] (by decide),
      applyEvalFlag_other _ args ["DATA", "BATCH_SIZE"] (by decide),
      applyDataPath_other _ args ["DATA", "BATCH_SIZE"] (by decide),
      applyAccumIter_other _ args ["DATA", "BATCH_SIZE"] (by decide),
      applyImageSize_other _ args ["DATA", "BATCH_SIZE"] (by decide),
      applyBatchSizeEval_other _ args ["DATA", "BATCH_SIZE"] (by decide),
      applyBatchSize_target_bs _ args (by rw [applyDataset_shape]; exact hBS),
      applyDataset_other _ args ["DATA", "BATCH_SIZE"] (by decide)]
    rfl
  · rw [applyAmp_other _ args ["DATA", "BATCH_SIZE_EVAL"] (by decide),
      applyLastEpoch_other _ args ["DATA", "BATCH_SIZE_EVAL"] (by decide),
      applyResume_other _ args ["DATA", "BATCH_SIZE_EVAL"] (by decide),
      applyPretrained_other _ args ["DATA", "BATCH_SIZE_EVAL"] (by decide),
      applyEvalFlag_other _ args ["DATA", "BATCH_SIZE_EVAL"] (by decide),
      applyDataPath_other _ args ["DATA", "BATCH_SIZE_EVAL"] (by decide),
      applyAccumIter_other _ args ["DATA", "BATCH_SIZE_EVAL"] (by decide),
      applyImageSize_other _ args ["DATA", "BATCH_SIZE_EVAL"] (by decide),
      applyBatchSizeEval_target _ args (by rw [applyBatchSize_shape, applyDataset_shape]; exact hBSE),
      applyBatchSize_target_bse _ args (by rw [applyDataset_shape]; exact hBSE),
      applyDataset_other _ args ["DATA", "BATCH_SIZE_EVAL"] (by decide)]
    rfl
  · rw [applyAmp_other _ args ["DATA", "IMAGE_SIZE"] (by decide),
      applyLastEpoch_other _ args ["DATA", "IMAGE_SIZE"] (by decide),
      applyResume_other _ args ["DATA", "IMAGE_SIZE"] (by decide),
      applyPretrained_other _ args ["DATA", "IMAGE_SIZE"] (by decide),
      applyEvalFlag_other _ args ["DATA", "IMAGE_SIZE"] (by decide),
      applyDataPath_other _ args ["DATA", "IMAGE_SIZE"] (by decide),
      applyAccumIter_other _ args ["DATA", "IMAGE_SIZE"] (by decide),
      applyImageSize_target _ args (by rw [applyBatchSizeEval_shape, applyBatchSize_shape, applyDataset_shape]; exact hIS),
      applyBatchSizeEval_other _ args ["DATA", "IMAGE_SIZE"] (by decide),
      applyBatchSize_other _ args ["DATA", "IMAGE_SIZE"] (by decide) (by decide),
      applyDataset_other _ args ["DATA", "IMAGE_SIZE"] (by decide)]
    rfl
  · rw [applyAmp_other _ args ["TRAIN", "ACCUM_ITER"] (by decide),
      applyLastEpoch_other _ args ["TRAIN", "ACCUM_ITER"] (by decide),
      applyResume_other _ args ["TRAIN", "ACCUM_ITER"] (by decide),
      applyPretrained_other _ args ["TRAIN", "ACCUM_ITER"] (by decide),
      applyEvalFlag_other _ args ["TRAIN", "ACCUM_ITER"] (by decide),
      applyDataPath_other _ args ["TRAIN", "ACCUM_ITER"] (by decide),
      applyAccumIter_target _ args (by rw [applyImageSize_shape, applyBatchSizeEval_shape, applyBatchSize_shape, applyDataset_shape]; exact hAI),
      applyImageSize_other _ args ["TRAIN", "ACCUM_ITER"] (by decide),
      applyBatchSizeEval_other _ args ["TRAIN", "ACCUM_ITER"] (by decide),
      applyBatchSize_other _ args ["TRAIN", "ACCUM_ITER"] (by decide) (by decide),
      applyDataset_other _ args ["TRAIN", "ACCUM_ITER"] (by decide)]
    rfl
  · rw [applyAmp_other _ args ["DATA", "DATA_PATH"] (by decide),
      applyLastEpoch_other _ args ["DATA", "DATA_PATH"] (by decide),
      applyResume_other _ args ["DATA", "DATA_PATH"] (by decide),
      applyPretrained_other _ args ["DATA", "DATA_PATH"] (by decide),
      applyEvalFlag_other _ args ["DATA", "DATA_PATH"] (by decide),
      applyDataPath_target _ args (by rw [applyAccumIter_shape, applyImageSize_shape, applyBatchSizeEval_shape, applyBatchSize_shape, applyDataset_shape]; exact hDP),
      applyAccumIter_other _ args ["DATA", "DATA_PATH"] (by decide),
      applyImageSize_other _ args ["DATA", "DATA_PATH"] (by decide),
      applyBatchSizeEval_other _ args ["DATA", "DATA_PATH"] (by decide),
      applyBatchSize_other _ args ["DATA", "DATA_PATH"] (by decide) (by decide),
      applyDataset_other _ args ["DATA", "DATA_PATH"] (by decide)]
    rfl
  · rw [applyAmp_other _ args ["EVAL"] (by decide),
      applyLastEpoch_other _ args ["EVAL"] (by decide),
      applyResume_other _ args ["EVAL"] (by decide),
      applyPretrained_other _ args ["EVAL"] (by decide),
      applyEvalFlag_target _ args (by rw [applyDataPath_shape, applyAccumIter_shape, applyImageSize_shape, applyBatchSizeEval_shape, applyBatchSize_shape, applyDataset_shape]; exact hEV),
      applyDataPath_other _ args ["EVAL"] (by decide),
      applyAccumIter_other _ args ["EVAL"] (by decide),
      applyImageSize_other _ args ["EVAL"] (by decide),
      applyBatchSizeEval_other _ args ["EVAL"] (by decide),
      applyBatchSize_other _ args ["EVAL"] (by decide) (by decide),
      applyDataset_other _ args ["EVAL"] (by decide)]
    rfl
  · rw [applyAmp_other _ args ["MODEL", "PRETRAINED"] (by decide),
      applyLastEpoch_other _ args ["MODEL", "PRETRAINED"] (by decide),
      applyResume_other _ args ["MODEL", "PRETRAINED"] (by decide),
      applyPretrained_target _ args (by rw [applyEvalFlag_shape, applyDataPath_shape, applyAccumIter_shape, applyImageSize_shape, applyBatchSizeEval_shape, applyBatchSize_shape, applyDataset_shape]; exact hPT),
      applyEvalFlag_other _ args ["MODEL", "PRETRAINED"] (by decide),
      applyDataPath_other _ args ["MODEL", "PRETRAINED"] (by decide),
      applyAccumIter_other _ args ["MODEL", "PRETRAINED"] (by decide),
      applyImageSize_other _ args ["MODEL", "PRETRAINED"] (by decide),
      applyBatchSizeEval_other _ args ["MODEL", "PRETRAINED"] (by decide),
      applyBatchSize_other _ args ["MODEL", "PRETRAINED"] (by decide) (by decide),
      applyDataset_other _ args ["MODEL", "PRETRAINED"] (by decide)]
    rfl
  · rw [applyAmp_other _ args ["MODEL", "RESUME"] (by decide),
      applyLastEpoch_other _ args ["MODEL", "RESUME"] (by decide),
      applyResume_target _ args (by rw [applyPretrained_shape, applyEvalFlag_shape, applyDataPath_shape, applyAccumIter_shape, applyImageSize_shape, applyBatchSizeEval_shape, applyBatchSize_shape, applyDataset_shape]; exact hRS),
      applyPretrained_other _ args ["MODEL", "RESUME"] (by decide),
      applyEvalFlag_other _ args ["MODEL", "RESUME"] (by decide),
      applyDataPath_other _ args ["MODEL", "RESUME"] (by decide),
      applyAccumIter_other _ args ["MODEL", "RESUME"] (by decide),
      applyImageSize_other _ args ["MODEL", "RESUME"] (by decide),
      applyBatchSizeEval_other _ args ["MODEL", "RESUME"] (by decide),
      applyBatchSize_other _ args ["MODEL", "RESUME"] (by decide) (by decide),
      applyDataset_other _ args ["MODEL", "RESUME"] (by decide)]
    rfl
  · rw [applyAmp_other _ args ["TRAIN", "LAST_EPOCH"] (by decide),
      applyLastEpoch_target _ args (by rw [applyResume_shape, applyPretrained_shape, applyEvalFlag_shape, applyDataPath_shape, applyAccumIter_shape, applyImageSize_shape, applyBatchSizeEval_shape, applyBatchSize_shape, applyDataset_shape]; exact hLE),
      applyResume_other _ args ["TRAIN", "LAST_EPOCH"] (by decide),
      applyPretrained_other _ args ["TRAIN", "LAST_EPOCH"] (by decide),
      applyEvalFlag_other _ args ["TRAIN", "LAST_EPOCH"] (by decide),
      applyDataPath_other _ args ["TRAIN", "LAST_EPOCH"] (by decide),
      applyAccumIter_other _ args ["TRAIN", "LAST_EPOCH"] (by decide),
      applyImageSize_other _ args ["TRAIN", "LAST_EPOCH"] (by decide),
      applyBatchSizeEval_other _ args ["TRAIN", "LAST_EPOCH"] (by decide),
      applyBatchSize_other _ args ["TRAIN", "LAST_EPOCH"] (by decide) (by decide),
      applyDataset_other _ args ["TRAIN", "LAST_EPOCH"] (by decide)]
    rfl
  · have hgv : getValAt ["EVAL"] (applyLastEpoch (applyResume (applyPretrained (applyEvalFlag (applyDataPath (applyAccumIter (applyImageSize (applyBatchSizeEval (applyBatchSize (applyDataset (defrost cfg) args) args) args) args) args) args) args) args) args) args) =
        (if args.eval then CVal.bool true else getValAt ["EVAL"] cfg) := by
      unfold getValAt
      rw [applyLastEpoch_other _ args ["EVAL"] (by decide),
        applyResume_other _ args ["EVAL"] (by decide),
        applyPretrained_other _ args ["EVAL"] (by decide),
        applyEvalFlag_target _ args (by rw [applyDataPath_shape, applyAccumIter_shape, applyImageSize_shape, applyBatchSizeEval_shape, applyBatchSize_shape, applyDataset_shape]; exact hEV),
        applyDataPath_other _ args ["EVAL"] (by decide),
        applyAccumIter_other _ args ["EVAL"] (by decide),
        applyImageSize_other _ args ["EVAL"] (by decide),
        applyBatchSizeEval_other _ args ["EVAL"] (by decide),
        applyBatchSize_other _ args ["EVAL"] (by decide) (by decide),
        applyDataset_other _ args ["EVAL"] (by decide)]
      by_cases he : args.eval
      · simp [he]
      · simp [he]
        rfl
    rw [applyAmp_target _ args (by rw [applyLastEpoch_shape, applyResume_shape, applyPretrained_shape, applyEvalFlag_shape, applyDataPath_shape, applyAccumIter_shape, applyImageSize_shape, applyBatchSizeEval_shape, applyBatchSize_shape, applyDataset_shape]; exact hAM)]
    rw [hgv]
    rw [applyLastEpoch_other _ args ["AMP"] (by decide),
      applyResume_other _ args ["AMP"] (by decide),
      applyPretrained_other _ args ["AMP"] (by decide),
      applyEvalFlag_other _ args ["AMP"] (by decide),
      applyDataPath_other _ args ["AMP"] (by decide),
      applyAccumIter_other _ args ["AMP"] (by decide),
      applyImageSize_other _ args ["AMP"] (by decide),
      applyBatchSizeEval_other _ args ["AMP"] (by decide),
      applyBatchSize_other _ args ["AMP"] (by decide) (by decide),
      applyDataset_other _ args ["AMP"] (by decide)]
    rfl

/-- C6 counterexample: `get_config` called without a config file returns
the clone of the module-level defaults, which was never frozen — the
returned config is mutable, so it is not true that every `get_config`
result is frozen. -/
theorem get_config_unfrozen_cex :
    ¬ (∀ (fuel : Nat) (fs : FS) (file : Option String) (r : Config),
        get_config fuel fs file = Except.ok r → r.frozen = true) := by
  intro h
  have hr := h 1 [] none _C rfl
  have hfalse : _C.frozen = false := rfl
  rw [hfalse] at hr
  exact absurd hr (by decide)

/-- C6 as amended: `get_config` returns a frozen config whenever a
non-empty config file is supplied (and the merge succeeds); called without
a file it returns the defaults clone in the mutable state. -/
theorem get_config_freeze_amended :
    (∀ (fuel : Nat) (fs : FS) (f : String) (r : Config), f ≠ "" →
        get_config fuel fs (some f) = Except.ok r → r.frozen = true) ∧
    (∀ (fuel : Nat) (fs : FS),
        get_config fuel fs none = Except.ok (Config.mk defaultCTree false)) := by
  constructor
  · intro fuel fs f r hf hok
    unfold get_config at hok
    dsimp only at hok
    rw [if_neg hf] at hok
    exact updateConfigFromFile_frozen fuel fs f (clone _C) r hok
  · intro fuel fs
    rfl

/-- Witness for the amended C6 theorem at a one-file filesystem holding an
empty document. -/
theorem get_config_freeze_amended_w :
    (Config.mk defaultCTree true).frozen = true ∧
    (Config.mk defaultCTree false).frozen = false :=
  ⟨get_config_freeze_amended.1 1 [("F", [])] "F" (Config.mk defaultCTree true)
      (by decide) rfl,
    rfl⟩

/-- C7: round-trip.  If the yaml file's contents are exactly the current
values of every key of the config (every assignment repeats the current
value, and every key of the config is covered), then any config the merge
returns agrees with the input config on every key path (first conjunct),
and when the file's BASE list has no non-empty entry the merge succeeds
outright, returning the unchanged tree re-frozen (second conjunct). -/
theorem roundtrip_noop (fuel : Nat) (fs : FS) (f : String) (d : YamlDoc) (cfg : Config)
    (hf : lookupFS fs f = some d)
    (hvals : ∀ kv ∈ d, leafAt kv.1 cfg.tree = some kv.2)
    (hcov : ∀ p v, leafAt p cfg.tree = some v → (p, v) ∈ d) :
    (∀ out, updateConfigFromFile fuel fs f cfg = Except.ok out →
      ∀ p, leafAt p out.tree = leafAt p cfg.tree) ∧
    ((∀ b ∈ docBase d, b = "") → ∀ n, fuel = Nat.succ n →
      updateConfigFromFile fuel fs f cfg = Except.ok (Config.mk (applyKeys d cfg.tree) true) ∧
      ∀ p, leafAt p (applyKeys d cfg.tree) = leafAt p cfg.tree) := by
  constructor
  · intro out hok p
    cases fuel with
    | zero => simp [updateConfigFromFile] at hok
    | succ n =>
      simp only [updateConfigFromFile, hf] at hok
      cases hbases : mergeBasesWith (updateConfigFromFile n fs) (osDirname f) (docBase d) (defrost cfg) with
      | error e => rw [hbases] at hok; dsimp only at hok; exact absurd hok (by simp)
      | ok cb =>
        rw [hbases] at hok
        dsimp only at hok
        cases hmerge : mergeOwnKeys cb d with
        | error e => rw [hmerge] at hok; dsimp only at hok; exact absurd hok (by simp)
        | ok cm =>
          rw [hmerge] at hok
          dsimp only at hok
          have hout : out = freeze cm := by
            have := hok
            simp at this
            exact this.symm
          have hshape : ∀ r, hasLeaf r cb.tree = hasLeaf r cfg.tree :=
            mergeBasesWith_shape (updateConfigFromFile n fs)
              (fun g d1 d2 hg => updateConfigFromFile_shape n fs g d1 d2 hg) (osDirname f)
              (docBase d) (defrost cfg) cb hbases
          have htree : cm.tree = applyKeys d cb.tree := mergeOwnKeys_ok_tree cb d cm hmerge
          rw [hout]
          have houtTree : (freeze cm).tree = applyKeys d cb.tree := htree
          rw [houtTree]
          by_cases hp : ∃ v, (p, v) ∈ d
          · obtain ⟨v, hv⟩ := hp
            exact leafAt_applyKeys_covered d cb.tree cfg.tree p v hv hvals hshape
          · have hnm : ∀ kv ∈ d, kv.1 ≠ p := by
              intro kv hkv hcon
              exact hp ⟨kv.2, by rw [← hcon]; exact hkv⟩
            rw [leafAt_applyKeys_notMentioned d cb.tree p hnm]
            have hcfgnone : leafAt p cfg.tree = none := by
              cases hcase : leafAt p cfg.tree with
              | none => rfl
              | some v => exact absurd ⟨v, hcov p v hcase⟩ hp
            have hcbnone : leafAt p cb.tree = none := by
              have := hshape p
              unfold hasLeaf at this
              rw [hcfgnone] at this
              simp at this
              exact Option.eq_none_of_isNone (by simp [this])
            rw [hcbnone, hcfgnone]
  · intro hb n hn
    subst hn
    have hall : d.all (fun kv => hasLeaf kv.1 (defrost cfg).tree) = true := by
      apply List.all_eq_true.mpr
      intro kv hkv
      have := hvals kv hkv
      simp [hasLeaf, defrost, this]
    have hmerge : mergeOwnKeys (defrost cfg) d =
        Except.ok (Config.mk (applyKeys d cfg.tree) false) := by
      unfold mergeOwnKeys mergeTree
      rw [hall]
      rfl
    constructor
    · rw [updateConfigFromFile_leafOnly n fs f d cfg hf hb, hmerge]
      rfl
    · exact leafAt_applyKeys_noop d cfg.tree hvals

/-- C8: `get_config` with no file returns the static default tree, equal to
the defaults on every key and in the mutable state; the returned value is a
clone with value semantics, so mutating one returned clone only changes
that clone at the mutated path, and the static defaults (hence any other
clone, which is the same defaults value) are untouched. -/
theorem load_defaults_clone :
    (∀ (fuel : Nat) (fs : FS), get_config fuel fs none = Except.ok (Config.mk defaultCTree false)) ∧
    clone _C = _C ∧
    (∀ (p : List String) (v : CVal) (q : List String), q ≠ p →
      leafAt q (setPath p v (clone _C).tree) = leafAt q _C.tree ∧
      leafAt q _C.tree = leafAt q defaultCTree) := by
  refine ⟨fun fuel fs => rfl, rfl, ?_⟩
  intro p v q hq
  exact ⟨leafAt_setPath_ne p q v (clone _C).tree (Ne.symm hq), rfl⟩

/-- Witness for the clone-independence theorem: mutating a clone at
`DATA.DATASET` leaves `SEED` reads on the defaults unchanged. -/
theorem load_defaults_clone_w :
    leafAt ["SEED"] (setPath ["DATA", "DATASET"] (CVal.str "x") (clone _C).tree) =
      leafAt ["SEED"] _C.tree ∧
    leafAt ["SEED"] _C.tree = leafAt ["SEED"] defaultCTree :=
  load_defaults_clone.2.2 ["DATA", "DATASET"] (CVal.str "x") ["SEED"] (by decide)

/-- C9: freeze-state asymmetry.  Every successful `_update_config_from_file`
returns the config frozen (the function re-freezes on exit), while every
successful `update_config` returns it mutable (its final `freeze()` is
commented out in the source). -/
theorem freeze_asymmetry :
    (∀ (fuel : Nat) (fs : FS) (f : String) (cfg out : Config),
      updateConfigFromFile fuel fs f cfg = Except.ok out → out.frozen = true) ∧
    (∀ (fuel : Nat) (fs : FS) (cfg : Config) (args : Args) (out : Config),
      update_config fuel fs cfg args = Except.ok out → out.frozen = false) := by
  constructor
  · intro fuel fs f cfg out h
    exact updateConfigFromFile_frozen fuel fs f cfg out h
  · intro fuel fs cfg args out h
    unfold update_config at h
    cases hcf : args.cfg with
    | none =>
      rw [hcf] at h
      dsimp only at h
      have := Except.ok.inj h
      rw [← this, applyArgs_frozen]
      rfl
    | some g =>
      rw [hcf] at h
      dsimp only at h
      by_cases hg : g = ""
      · rw [if_pos hg] at h
        dsimp only at h
        have := Except.ok.inj h
        rw [← this, applyArgs_frozen]
        rfl
      · rw [if_neg hg] at h
        cases hu : updateConfigFromFile fuel fs g cfg with
        | error e => rw [hu] at h; dsimp only at h; exact absurd h (by simp)
        | ok c2 =>
          rw [hu] at h
          dsimp only at h
          have := Except.ok.inj h
          rw [← this, applyArgs_frozen]
          rfl

/-- Witness for the freeze asymmetry at concrete runs: a merge of an empty
document freezes the defaults, a CLI pass with no options leaves them
mutable. -/
theorem freeze_asymmetry_w :
    (Config.mk defaultCTree true).frozen = true ∧
    (Config.mk defaultCTree false).frozen = false :=
  ⟨freeze_asymmetry.1 1 [("F", [])] "F" _C (Config.mk defaultCTree true) rfl,
    freeze_asymmetry.2 1 [] _C
      (Args.mk none none none none none none none false none none none false)
      (Config.mk defaultCTree false) rfl⟩

/-- C10: `DATA.BATCH_SIZE_EVAL` defaults to null, not to the train batch
size.  In the static defaults it is null while `DATA.BATCH_SIZE` is 64, and
for any CLI pass on the defaults clone with no yaml file and with the
`batch_size` and `batch_size_eval` options absent or zero, the final config
still has `DATA.BATCH_SIZE_EVAL = null` and `DATA.BATCH_SIZE = 64`. -/
theorem default_eval_batch (fuel : Nat) (fs : FS) (args : Args) (out : Config)
    (hc : args.cfg = none)
    (hbs : args.batch_size = none ∨ args.batch_size = some 0)
    (hbse : args.batch_size_eval = none ∨ args.batch_size_eval = some 0)
    (hok : update_config fuel fs (clone _C) args = Except.ok out) :
    leafAt ["DATA", "BATCH_SIZE_EVAL"] defaultCTree = some CVal.null ∧
    leafAt ["DATA", "BATCH_SIZE"] defaultCTree = some (CVal.int 64) ∧
    leafAt ["DATA", "BATCH_SIZE_EVAL"] out.tree = some CVal.null ∧
    leafAt ["DATA", "BATCH_SIZE"] out.tree = some (CVal.int 64) := by
  rw [update_config_noFile fuel fs (clone _C) args hc] at hok
  have hout := Except.ok.inj hok
  subst hout
  have hgoal : applyArgs (defrost (clone _C)) args = (applyAmp (applyLastEpoch (applyResume (applyPretrained (applyEvalFlag (applyDataPath (applyAccumIter (applyImageSize (applyBatchSizeEval (applyBatchSize (applyDataset (defrost (clone _C)) args) args) args) args) args) args) args) args) args) args) args) := rfl
  rw [hgoal]
  refine ⟨rfl, rfl, ?_, ?_⟩
  · rw [applyAmp_other _ args ["DATA", "BATCH_SIZE_EVAL"] (by decide),
      applyLastEpoch_other _ args ["DATA", "BATCH_SIZE_EVAL"] (by decide),
      applyResume_other _ args ["DATA", "BATCH_SIZE_EVAL"] (by decide),
      applyPretrained_other _ args ["DATA", "BATCH_SIZE_EVAL"] (by decide),
      applyEvalFlag_other _ args ["DATA", "BATCH_SIZE_EVAL"] (by decide),
      applyDataPath_other _ args ["DATA", "BATCH_SIZE_EVAL"] (by decide),
      applyAccumIter_other _ args ["DATA", "BATCH_SIZE_EVAL"] (by decide),
      applyImageSize_other _ args ["DATA", "BATCH_SIZE_EVAL"] (by decide),
      applyBatchSizeEval_target _ args (by rw [applyBatchSize_shape, applyDataset_shape]; rfl),
      applyBatchSize_target_bse _ args (by rw [applyDataset_shape]; rfl),
      applyDataset_other _ args ["DATA", "BATCH_SIZE_EVAL"] (by decide)]
    rcases hbse with h1 | h1 <;> rcases hbs with h2 | h2 <;> rw [h1, h2] <;> rfl
  · rw [applyAmp_other _ args ["DATA", "BATCH_SIZE"] (by decide),
      applyLastEpoch_other _ args ["DATA", "BATCH_SIZE"] (by decide),
      applyResume_other _ args ["DATA", "BATCH_SIZE"] (by decide),
      applyPretrained_other _ args ["DATA", "BATCH_SIZE"] (by decide),
      applyEvalFlag_other _ args ["DATA", "BATCH_SIZE"] (by decide),
      applyDataPath_other _ args ["DATA", "BATCH_SIZE"] (by decide),
      applyAccumIter_other _ args ["DATA", "BATCH_SIZE"] (by decide),
      applyImageSize_other _ args ["DATA", "BATCH_SIZE"] (by decide),
      applyBatchSizeEval_other _ args ["DATA", "BATCH_SIZE"] (by decide),
      applyBatchSize_target_bs _ args (by rw [applyDataset_shape]; rfl),
      applyDataset_other _ args ["DATA", "BATCH_SIZE"] (by decide)]
    rcases hbs with h2 | h2 <;> rw [h2] <;> rfl

/-- Witness for the implicit-default theorem: a CLI pass with every option
absent keeps the null eval batch size and the train batch size 64. -/
theorem default_eval_batch_w :
    leafAt ["DATA", "BATCH_SIZE_EVAL"] defaultCTree = some CVal.null ∧
    leafAt ["DATA", "BATCH_SIZE"] defaultCTree = some (CVal.int 64) ∧
    leafAt ["DATA", "BATCH_SIZE_EVAL"] (Config.mk defaultCTree false).tree = some CVal.null ∧
    leafAt ["DATA", "BATCH_SIZE"] (Config.mk defaultCTree false).tree = some (CVal.int 64) :=
  default_eval_batch 1 []
    (Args.mk none none none none none none none false none none none false)
    (Config.mk defaultCTree false) rfl (Or.inl rfl) (Or.inl rfl) rfl

/-- Witness for BASE-chain equivalence on a three-file chain over a small
schema, with the equivalent sequential merge evaluated to its concrete
result. -/
theorem base_chain_seq_equiv_w :
    updateConfigFromFile 3
        [("A.yaml", [(["BASE"], CVal.strList []), (["X"], CVal.int 1)]),
          ("B.yaml", [(["BASE"], CVal.strList ["A.yaml"]), (["X"], CVal.int 2)]),
          ("C.yaml", [(["BASE"], CVal.strList ["B.yaml"]), (["X"], CVal.int 3)])]
        "C.yaml"
        (Config.mk (CTree.node [("BASE", CTree.leaf (CVal.strList [""])),
          ("X", CTree.leaf (CVal.int 0))]) false) =
      seqMergeThree
        (Config.mk (CTree.node [("BASE", CTree.leaf (CVal.strList [""])),
          ("X", CTree.leaf (CVal.int 0))]) false)
        [(["BASE"], CVal.strList []), (["X"], CVal.int 1)]
        [(["BASE"], CVal.strList ["A.yaml"]), (["X"], CVal.int 2)]
        [(["BASE"], CVal.strList ["B.yaml"]), (["X"], CVal.int 3)] ∧
    seqMergeThree
        (Config.mk (CTree.node [("BASE", CTree.leaf (CVal.strList [""])),
          ("X", CTree.leaf (CVal.int 0))]) false)
        [(["BASE"], CVal.strList []), (["X"], CVal.int 1)]
        [(["BASE"], CVal.strList ["A.yaml"]), (["X"], CVal.int 2)]
        [(["BASE"], CVal.strList ["B.yaml"]), (["X"], CVal.int 3)] =
      Except.ok (Config.mk (CTree.node [("BASE", CTree.leaf (CVal.strList ["B.yaml"])),
        ("X", CTree.leaf (CVal.int 3))]) true) :=
  ⟨base_chain_seq_equiv 0
      [("A.yaml", [(["BASE"], CVal.strList []), (["X"], CVal.int 1)]),
        ("B.yaml", [(["BASE"], CVal.strList ["A.yaml"]), (["X"], CVal.int 2)]),
        ("C.yaml", [(["BASE"], CVal.strList ["B.yaml"]), (["X"], CVal.int 3)])]
      [(["BASE"], CVal.strList []), (["X"], CVal.int 1)]
      [(["BASE"], CVal.strList ["A.yaml"]), (["X"], CVal.int 2)]
      [(["BASE"], CVal.strList ["B.yaml"]), (["X"], CVal.int 3)]
      (Config.mk (CTree.node [("BASE", CTree.leaf (CVal.strList [""])),
        ("X", CTree.leaf (CVal.int 0))]) false)
      rfl rfl rfl (by decide) rfl rfl,
    rfl⟩

/-- Witness for unknown-key rejection: a one-key file with the unknown key
`NOPE` merged over the defaults fails with a SchemaError. -/
theorem unknown_key_rejected_w :
    updateConfigFromFile 1 [("F", [(["NOPE"], CVal.int 1)])] "F" _C =
      Except.error CErr.schemaError :=
  (unknown_key_rejected 1 [("F", [(["NOPE"], CVal.int 1)])] "F"
      [(["NOPE"], CVal.int 1)] _C (["NOPE"], CVal.int 1)
      rfl (by decide) rfl).2 (by decide) 0 rfl

/-- Witness for CLI batch-size precedence on the defaults: both scenarios
evaluated. -/
theorem cli_batch_precedence_w :
    (leafAt ["DATA", "BATCH_SIZE"] (setVal ["DATA", "BATCH_SIZE_EVAL"] (CVal.int 32)
        (setVal ["DATA", "BATCH_SIZE"] (CVal.int 32) (defrost _C))).tree =
      some (CVal.int 32) ∧
    leafAt ["DATA", "BATCH_SIZE_EVAL"] (setVal ["DATA", "BATCH_SIZE_EVAL"] (CVal.int 32)
        (setVal ["DATA", "BATCH_SIZE"] (CVal.int 32) (defrost _C))).tree =
      some (CVal.int 32)) ∧
    (leafAt ["DATA", "BATCH_SIZE"] (setVal ["DATA", "BATCH_SIZE_EVAL"] (CVal.int 16)
        (setVal ["DATA", "BATCH_SIZE_EVAL"] (CVal.int 32)
          (setVal ["DATA", "BATCH_SIZE"] (CVal.int 32) (defrost _C)))).tree =
      some (CVal.int 32) ∧
    leafAt ["DATA", "BATCH_SIZE_EVAL"] (setVal ["DATA", "BATCH_SIZE_EVAL"] (CVal.int 16)
        (setVal ["DATA", "BATCH_SIZE_EVAL"] (CVal.int 32)
          (setVal ["DATA", "BATCH_SIZE"] (CVal.int 32) (defrost _C)))).tree =
      some (CVal.int 16)) :=
  ⟨(cli_batch_precedence 1 [] _C rfl rfl).1 _ rfl,
    (cli_batch_precedence 1 [] _C rfl rfl).2 _ rfl⟩

/-- Witness for AMP gating on the defaults: both scenarios evaluated. -/
theorem amp_gating_w :
    (leafAt ["EVAL"] (applyAmp (setVal ["EVAL"] (CVal.bool true) (defrost _C))
        (Args.mk none none none none none none none true none none none true)).tree =
      some (CVal.bool true) ∧
    leafAt ["AMP"] (applyAmp (setVal ["EVAL"] (CVal.bool true) (defrost _C))
        (Args.mk none none none none none none none true none none none true)).tree =
      some (CVal.bool false)) ∧
    leafAt ["AMP"] (applyAmp (defrost _C)
        (Args.mk none none none none none none none false none none none true)).tree =
      some (CVal.bool true) :=
  ⟨(amp_gating 1 [] _C rfl rfl).1 _ rfl,
    (amp_gating 1 [] _C rfl rfl).2 rfl _ rfl⟩

/-- Witness for the truthiness override theorem: with `dataset="cifar10"`,
`last_epoch=0` and `amp=true` on a config whose `TRAIN.LAST_EPOCH` is 5 and
`EVAL` false, the dataset is applied, the zero last epoch is not, and amp
becomes true. -/
theorem cli_truthy_override_w :
    leafAt ["DATA", "DATASET"]
      (applyArgs (defrost (Config.mk (setPath ["TRAIN", "LAST_EPOCH"] (CVal.int 5) defaultCTree) false))
        (Args.mk none (some "cifar10") none none none none none false none none (some 0) true)).tree =
      some (CVal.str "cifar10") ∧
    leafAt ["TRAIN", "LAST_EPOCH"]
      (applyArgs (defrost (Config.mk (setPath ["TRAIN", "LAST_EPOCH"] (CVal.int 5) defaultCTree) false))
        (Args.mk none (some "cifar10") none none none none none false none none (some 0) true)).tree =
      some (CVal.int 5) ∧
    leafAt ["AMP"]
      (applyArgs (defrost (Config.mk (setPath ["TRAIN", "LAST_EPOCH"] (CVal.int 5) defaultCTree) false))
        (Args.mk none (some "cifar10") none none none none none false none none (some 0) true)).tree =
      some (CVal.bool true) := by
  have h := cli_truthy_override 1 []
    (Config.mk (setPath ["TRAIN", "LAST_EPOCH"] (CVal.int 5) defaultCTree) false)
    (Args.mk none (some "cifar10") none none none none none false none none (some 0) true)
    (applyArgs (defrost (Config.mk (setPath ["TRAIN", "LAST_EPOCH"] (CVal.int 5) defaultCTree) false))
      (Args.mk none (some "cifar10") none none none none none false none none (some 0) true))
    rfl rfl rfl rfl rfl rfl rfl rfl rfl rfl rfl rfl rfl
  exact ⟨h.1.trans rfl, (h.2.2.2.2.2.2.2.2.2.1).trans rfl, (h.2.2.2.2.2.2.2.2.2.2).trans rfl⟩

/-- Witness for the round-trip theorem on a one-key schema: re-merging the
current value is a no-op and returns the frozen unchanged tree. -/
theorem roundtrip_noop_w :
    updateConfigFromFile 1 [("R", [(["X"], CVal.int 7)])] "R"
        (Config.mk (CTree.node [("X", CTree.leaf (CVal.int 7))]) false) =
      Except.ok (Config.mk
        (applyKeys [(["X"], CVal.int 7)] (CTree.node [("X", CTree.leaf (CVal.int 7))])) true) ∧
    leafAt ["X"] (applyKeys [(["X"], CVal.int 7)] (CTree.node [("X", CTree.leaf (CVal.int 7))])) =
      leafAt ["X"] (CTree.node [("X", CTree.leaf (CVal.int 7))]) := by
  have hcov : ∀ (p : List String) (v : CVal),
      leafAt p (Config.mk (CTree.node [("X", CTree.leaf (CVal.int 7))]) false).tree = some v →
      (p, v) ∈ [(["X"], CVal.int 7)] := by
    intro p v h
    match p with
    | [] => simp [leafAt] at h
    | [k] =>
      by_cases hk : k = "X"
      · subst hk
        simp [leafAt, List.find?] at h
        subst h
        simp
      · have hk2 : "X" ≠ k := fun hcon => hk hcon.symm
        simp [leafAt, List.find?, hk2] at h
    | k :: k2 :: ks =>
      by_cases hk : k = "X"
      · subst hk
        simp [leafAt, List.find?] at h
      · have hk2 : "X" ≠ k := fun hcon => hk hcon.symm
        simp [leafAt, List.find?, hk2] at h
  have h := roundtrip_noop 1 [("R", [(["X"], CVal.int 7)])] "R" [(["X"], CVal.int 7)]
    (Config.mk (CTree.node [("X", CTree.leaf (CVal.int 7))]) false) rfl (by decide) hcov
  have h2 := h.2 (by decide) 0 rfl
  exact ⟨h2.1, h2.2 ["X"]⟩
